import Mathlib

/-!
Verification development for the mc-dotfiles repository.

Embedded components:
* the Mode S word codec of `Interrogations.get_mode_s_data`
  (src/interrogations.py), including the aircraft-address hex decode;
* the newline framer and receive path of `TCPClient`
  (src/network/client.py): `send_message`, `receive_data`, `_process_buffer`;
* the session lifecycle of `TCPClient.connect` / `disconnect` composed with
  `MCS.connect_to_server` (src/app.py).

Python integers are modelled as `Int`; the packed 32-bit word as `Nat`;
strings as `List Char`; exceptions as `Except`.
-/

/-! ## Word codec (src/interrogations.py, get_mode_s_data) -/

/-- Model of Python's `v & m` on arbitrary ints, for an all-ones mask
`m = 2^k - 1`.  Every mask in `get_mode_s_data` is of this shape
(0x1, 0x3, 0x7, 0xF, 0x1F), and on Python's two's-complement integers
`v & (2^k - 1)` equals `v mod 2^k` for every `v`, negative included. -/
def pyAnd (v : Int) (m : Nat) : Nat := (v % ((m : Int) + 1)).toNat

/-- The clamp `max(0, min(31, x))` applied to `reply_request` and `sis`
when the `values` dict is built (src/interrogations.py lines 307 and 319). -/
def clamp31 (v : Int) : Int := max 0 (min 31 v)

/-- Raw widget values read by `get_mode_s_data` (src/interrogations.py lines
304-324).  The source's `interrogator_code` entry is read from the same IIS
widget as `iis`, so it is represented by `iis` here. -/
structure ModeSFields where
  fmt : Int
  protocol : Int
  reply_request : Int
  designator : Int
  iis : Int
  mbs : Int
  mes : Int
  los : Int
  rss : Int
  tms : Int
  rrs : Int
  tcs : Int
  rcs : Int
  sas : Int
  sis : Int
  lss : Int
  prob_reply : Int
  code_label : Int

/-- Bit packing of `get_mode_s_data` (src/interrogations.py lines 333-388).
`reply_request` and `sis` pass through `max(0, min(31, .))` exactly as in the
`values` dict; Python's `fmt in (4, 5, 20, 21)` membership test and the
designator handler dictionary become the if chains below; `|=` becomes
`Nat.lor`.  Returns the 32-bit `mode_s_word`. -/
def get_mode_s_data (f : ModeSFields) : Nat :=
  let reply_request := clamp31 f.reply_request
  let sis := clamp31 f.sis
  let w0 := 0 ||| (pyAnd f.fmt 0x1F) <<< 27
  if f.fmt = 4 ∨ f.fmt = 5 ∨ f.fmt = 20 ∨ f.fmt = 21 then
    let w1 := w0 ||| (pyAnd f.protocol 0x7) <<< 24
    let w2 := w1 ||| (pyAnd reply_request 0x1F) <<< 19
    let w3 := w2 ||| (pyAnd f.designator 0x7) <<< 16
    if f.designator = 0 then
      w3 ||| (pyAnd f.iis 0xF) <<< 12
    else if f.designator = 1 then
      w3 ||| ((pyAnd f.iis 0xF) <<< 12 |||
              (pyAnd f.mbs 0x3) <<< 10 |||
              (pyAnd f.mes 0x7) <<< 7 |||
              (pyAnd f.los 0x1) <<< 6 |||
              (pyAnd f.rss 0x3) <<< 4 |||
              pyAnd f.tms 0xF)
    else if f.designator = 2 then
      w3 ||| ((pyAnd f.tcs 0x7) <<< 8 |||
              (pyAnd f.rcs 0x7) <<< 5 |||
              (pyAnd f.sas 0x3) <<< 3)
    else if f.designator = 3 then
      w3 ||| ((pyAnd sis 0x1F) <<< 11 |||
              (pyAnd f.lss 0x1) <<< 10 |||
              (pyAnd f.rrs 0xF) <<< 6)
    else if f.designator = 7 then
      w3 ||| ((pyAnd f.iis 0xF) <<< 12 |||
              (pyAnd f.rrs 0xF) <<< 8 |||
              (pyAnd f.los 0x1) <<< 6 |||
              pyAnd f.tms 0xF)
    else
      w3
  else if f.fmt = 11 ∨ f.fmt = 17 then
    w0 ||| (pyAnd f.prob_reply 0xF) <<< 23
       ||| (pyAnd f.iis 0xF) <<< 19
       ||| (pyAnd f.code_label 0x7) <<< 16
  else
    w0

/-- Extraction of the spec's bit range `a..b`, where bit 1 is the most
significant of the 32-bit word. -/
def extract (w a b : Nat) : Nat := (w >>> (32 - b)) % 2 ^ (b - a + 1)

theorem pyAnd_lt (v : Int) (m : Nat) : pyAnd v m < m + 1 := by
  unfold pyAnd
  have h1 : (0 : Int) < (m : Int) + 1 := by positivity
  have h2 := Int.emod_lt_of_pos v h1
  have h3 := Int.emod_nonneg v (by omega : ((m : Int) + 1) ≠ 0)
  omega

theorem clamp31_pyAnd (v : Int) : pyAnd (clamp31 v) 31 = (clamp31 v).toNat := by
  unfold pyAnd clamp31
  omega

theorem clamp31_toNat_lt (v : Int) : (clamp31 v).toNat < 32 := by
  unfold clamp31
  omega

/-- Disjoint bitwise or is addition: if `a` is zero below bit `n` and `b`
lives entirely below bit `n`, then `a ||| b = a + b`. -/
theorem lor_eq_add (n a b C : Nat) (hC : 2 ^ n = C) (ha : a % C = 0)
    (hb : b < C) : a ||| b = a + b := by
  subst hC
  have h := Nat.mul_add_lt_is_or hb (a / 2 ^ n)
  have ha2 : 2 ^ n * (a / 2 ^ n) = a := by
    have := Nat.div_add_mod a (2 ^ n)
    omega
  rw [ha2] at h
  exact h.symm

theorem word_val_d0 (f : ModeSFields)
    (hf : f.fmt = 4 ∨ f.fmt = 5 ∨ f.fmt = 20 ∨ f.fmt = 21)
    (hd : f.designator = 0) :
    get_mode_s_data f =
      pyAnd f.fmt 31 * 134217728 + pyAnd f.protocol 7 * 16777216 + pyAnd (clamp31 f.reply_request) 31 * 524288 + pyAnd f.designator 7 * 65536 + pyAnd f.iis 15 * 4096 := by
  have b1 := pyAnd_lt f.fmt 31
  have b2 := pyAnd_lt f.protocol 7
  have b3 := pyAnd_lt (clamp31 f.reply_request) 31
  have b4 := pyAnd_lt f.designator 7
  have b5 := pyAnd_lt f.iis 15
  simp only [get_mode_s_data]
  rw [if_pos hf, if_pos hd]
  simp only [Nat.zero_or, Nat.shiftLeft_eq]
  norm_num
  rw [lor_eq_add 27 (pyAnd f.fmt 31 * 134217728) (pyAnd f.protocol 7 * 16777216) 134217728 (by norm_num) (by omega) (by omega)]
  rw [lor_eq_add 24 (pyAnd f.fmt 31 * 134217728 + pyAnd f.protocol 7 * 16777216) (pyAnd (clamp31 f.reply_request) 31 * 524288) 16777216 (by norm_num) (by omega) (by omega)]
  rw [lor_eq_add 19 (pyAnd f.fmt 31 * 134217728 + pyAnd f.protocol 7 * 16777216 + pyAnd (clamp31 f.reply_request) 31 * 524288) (pyAnd f.designator 7 * 65536) 524288 (by norm_num) (by omega) (by omega)]
  rw [lor_eq_add 16 (pyAnd f.fmt 31 * 134217728 + pyAnd f.protocol 7 * 16777216 + pyAnd (clamp31 f.reply_request) 31 * 524288 + pyAnd f.designator 7 * 65536) (pyAnd f.iis 15 * 4096) 65536 (by norm_num) (by omega) (by omega)]

theorem word_val_d1 (f : ModeSFields)
    (hf : f.fmt = 4 ∨ f.fmt = 5 ∨ f.fmt = 20 ∨ f.fmt = 21)
    (hd : f.designator = 1) :
    get_mode_s_data f =
      pyAnd f.fmt 31 * 134217728 + pyAnd f.protocol 7 * 16777216 + pyAnd (clamp31 f.reply_request) 31 * 524288 + pyAnd f.designator 7 * 65536 + pyAnd f.iis 15 * 4096 + pyAnd f.mbs 3 * 1024 + pyAnd f.mes 7 * 128 + pyAnd f.los 1 * 64 + pyAnd f.rss 3 * 16 + pyAnd f.tms 15 := by
  have b1 := pyAnd_lt f.fmt 31
  have b2 := pyAnd_lt f.protocol 7
  have b3 := pyAnd_lt (clamp31 f.reply_request) 31
  have b4 := pyAnd_lt f.designator 7
  have b5 := pyAnd_lt f.iis 15
  have b6 := pyAnd_lt f.mbs 3
  have b7 := pyAnd_lt f.mes 7
  have b8 := pyAnd_lt f.los 1
  have b9 := pyAnd_lt f.rss 3
  have b10 := pyAnd_lt f.tms 15
  simp only [get_mode_s_data]
  rw [if_pos hf, if_neg (by omega : ¬ f.designator = 0), if_pos hd]
  simp only [Nat.zero_or, Nat.shiftLeft_eq]
  norm_num
  rw [lor_eq_add 12 (pyAnd f.iis 15 * 4096) (pyAnd f.mbs 3 * 1024) 4096 (by norm_num) (by omega) (by omega)]
  rw [lor_eq_add 10 (pyAnd f.iis 15 * 4096 + pyAnd f.mbs 3 * 1024) (pyAnd f.mes 7 * 128) 1024 (by norm_num) (by omega) (by omega)]
  rw [lor_eq_add 7 (pyAnd f.iis 15 * 4096 + pyAnd f.mbs 3 * 1024 + pyAnd f.mes 7 * 128) (pyAnd f.los 1 * 64) 128 (by norm_num) (by omega) (by omega)]
  rw [lor_eq_add 6 (pyAnd f.iis 15 * 4096 + pyAnd f.mbs 3 * 1024 + pyAnd f.mes 7 * 128 + pyAnd f.los 1 * 64) (pyAnd f.rss 3 * 16) 64 (by norm_num) (by omega) (by omega)]
  rw [lor_eq_add 4 (pyAnd f.iis 15 * 4096 + pyAnd f.mbs 3 * 1024 + pyAnd f.mes 7 * 128 + pyAnd f.los 1 * 64 + pyAnd f.rss 3 * 16) (pyAnd f.tms 15) 16 (by norm_num) (by omega) (by omega)]
  rw [lor_eq_add 27 (pyAnd f.fmt 31 * 134217728) (pyAnd f.protocol 7 * 16777216) 134217728 (by norm_num) (by omega) (by omega)]
  rw [lor_eq_add 24 (pyAnd f.fmt 31 * 134217728 + pyAnd f.protocol 7 * 16777216) (pyAnd (clamp31 f.reply_request) 31 * 524288) 16777216 (by norm_num) (by omega) (by omega)]
  rw [lor_eq_add 19 (pyAnd f.fmt 31 * 134217728 + pyAnd f.protocol 7 * 16777216 + pyAnd (clamp31 f.reply_request) 31 * 524288) (pyAnd f.designator 7 * 65536) 524288 (by norm_num) (by omega) (by omega)]
  rw [lor_eq_add 16 (pyAnd f.fmt 31 * 134217728 + pyAnd f.protocol 7 * 16777216 + pyAnd (clamp31 f.reply_request) 31 * 524288 + pyAnd f.designator 7 * 65536) (pyAnd f.iis 15 * 4096 + pyAnd f.mbs 3 * 1024 + pyAnd f.mes 7 * 128 + pyAnd f.los 1 * 64 + pyAnd f.rss 3 * 16 + pyAnd f.tms 15) 65536 (by norm_num) (by omega) (by omega)]
  omega

theorem word_val_d2 (f : ModeSFields)
    (hf : f.fmt = 4 ∨ f.fmt = 5 ∨ f.fmt = 20 ∨ f.fmt = 21)
    (hd : f.designator = 2) :
    get_mode_s_data f =
      pyAnd f.fmt 31 * 134217728 + pyAnd f.protocol 7 * 16777216 + pyAnd (clamp31 f.reply_request) 31 * 524288 + pyAnd f.designator 7 * 65536 + pyAnd f.tcs 7 * 256 + pyAnd f.rcs 7 * 32 + pyAnd f.sas 3 * 8 := by
  have b1 := pyAnd_lt f.fmt 31
  have b2 := pyAnd_lt f.protocol 7
  have b3 := pyAnd_lt (clamp31 f.reply_request) 31
  have b4 := pyAnd_lt f.designator 7
  have b5 := pyAnd_lt f.tcs 7
  have b6 := pyAnd_lt f.rcs 7
  have b7 := pyAnd_lt f.sas 3
  simp only [get_mode_s_data]
  rw [if_pos hf, if_neg (by omega : ¬ f.designator = 0), if_neg (by omega : ¬ f.designator = 1), if_pos hd]
  simp only [Nat.zero_or, Nat.shiftLeft_eq]
  norm_num
  rw [lor_eq_add 8 (pyAnd f.tcs 7 * 256) (pyAnd f.rcs 7 * 32) 256 (by norm_num) (by omega) (by omega)]
  rw [lor_eq_add 5 (pyAnd f.tcs 7 * 256 + pyAnd f.rcs 7 * 32) (pyAnd f.sas 3 * 8) 32 (by norm_num) (by omega) (by omega)]
  rw [lor_eq_add 27 (pyAnd f.fmt 31 * 134217728) (pyAnd f.protocol 7 * 16777216) 134217728 (by norm_num) (by omega) (by omega)]
  rw [lor_eq_add 24 (pyAnd f.fmt 31 * 134217728 + pyAnd f.protocol 7 * 16777216) (pyAnd (clamp31 f.reply_request) 31 * 524288) 16777216 (by norm_num) (by omega) (by omega)]
  rw [lor_eq_add 19 (pyAnd f.fmt 31 * 134217728 + pyAnd f.protocol 7 * 16777216 + pyAnd (clamp31 f.reply_request) 31 * 524288) (pyAnd f.designator 7 * 65536) 524288 (by norm_num) (by omega) (by omega)]
  rw [lor_eq_add 16 (pyAnd f.fmt 31 * 134217728 + pyAnd f.protocol 7 * 16777216 + pyAnd (clamp31 f.reply_request) 31 * 524288 + pyAnd f.designator 7 * 65536) (pyAnd f.tcs 7 * 256 + pyAnd f.rcs 7 * 32 + pyAnd f.sas 3 * 8) 65536 (by norm_num) (by omega) (by omega)]
  omega

theorem word_val_d3 (f : ModeSFields)
    (hf : f.fmt = 4 ∨ f.fmt = 5 ∨ f.fmt = 20 ∨ f.fmt = 21)
    (hd : f.designator = 3) :
    get_mode_s_data f =
      pyAnd f.fmt 31 * 134217728 + pyAnd f.protocol 7 * 16777216 + pyAnd (clamp31 f.reply_request) 31 * 524288 + pyAnd f.designator 7 * 65536 + pyAnd (clamp31 f.sis) 31 * 2048 + pyAnd f.lss 1 * 1024 + pyAnd f.rrs 15 * 64 := by
  have b1 := pyAnd_lt f.fmt 31
  have b2 := pyAnd_lt f.protocol 7
  have b3 := pyAnd_lt (clamp31 f.reply_request) 31
  have b4 := pyAnd_lt f.designator 7
  have b5 := pyAnd_lt (clamp31 f.sis) 31
  have b6 := pyAnd_lt f.lss 1
  have b7 := pyAnd_lt f.rrs 15
  simp only [get_mode_s_data]
  rw [if_pos hf, if_neg (by omega : ¬ f.designator = 0), if_neg (by omega : ¬ f.designator = 1), if_neg (by omega : ¬ f.designator = 2), if_pos hd]
  simp only [Nat.zero_or, Nat.shiftLeft_eq]
  norm_num
  rw [lor_eq_add 11 (pyAnd (clamp31 f.sis) 31 * 2048) (pyAnd f.lss 1 * 1024) 2048 (by norm_num) (by omega) (by omega)]
  rw [lor_eq_add 10 (pyAnd (clamp31 f.sis) 31 * 2048 + pyAnd f.lss 1 * 1024) (pyAnd f.rrs 15 * 64) 1024 (by norm_num) (by omega) (by omega)]
  rw [lor_eq_add 27 (pyAnd f.fmt 31 * 134217728) (pyAnd f.protocol 7 * 16777216) 134217728 (by norm_num) (by omega) (by omega)]
  rw [lor_eq_add 24 (pyAnd f.fmt 31 * 134217728 + pyAnd f.protocol 7 * 16777216) (pyAnd (clamp31 f.reply_request) 31 * 524288) 16777216 (by norm_num) (by omega) (by omega)]
  rw [lor_eq_add 19 (pyAnd f.fmt 31 * 134217728 + pyAnd f.protocol 7 * 16777216 + pyAnd (clamp31 f.reply_request) 31 * 524288) (pyAnd f.designator 7 * 65536) 524288 (by norm_num) (by omega) (by omega)]
  rw [lor_eq_add 16 (pyAnd f.fmt 31 * 134217728 + pyAnd f.protocol 7 * 16777216 + pyAnd (clamp31 f.reply_request) 31 * 524288 + pyAnd f.designator 7 * 65536) (pyAnd (clamp31 f.sis) 31 * 2048 + pyAnd f.lss 1 * 1024 + pyAnd f.rrs 15 * 64) 65536 (by norm_num) (by omega) (by omega)]
  omega

theorem word_val_d7 (f : ModeSFields)
    (hf : f.fmt = 4 ∨ f.fmt = 5 ∨ f.fmt = 20 ∨ f.fmt = 21)
    (hd : f.designator = 7) :
    get_mode_s_data f =
      pyAnd f.fmt 31 * 134217728 + pyAnd f.protocol 7 * 16777216 + pyAnd (clamp31 f.reply_request) 31 * 524288 + pyAnd f.designator 7 * 65536 + pyAnd f.iis 15 * 4096 + pyAnd f.rrs 15 * 256 + pyAnd f.los 1 * 64 + pyAnd f.tms 15 := by
  have b1 := pyAnd_lt f.fmt 31
  have b2 := pyAnd_lt f.protocol 7
  have b3 := pyAnd_lt (clamp31 f.reply_request) 31
  have b4 := pyAnd_lt f.designator 7
  have b5 := pyAnd_lt f.iis 15
  have b6 := pyAnd_lt f.rrs 15
  have b7 := pyAnd_lt f.los 1
  have b8 := pyAnd_lt f.tms 15
  simp only [get_mode_s_data]
  rw [if_pos hf, if_neg (by omega : ¬ f.designator = 0), if_neg (by omega : ¬ f.designator = 1), if_neg (by omega : ¬ f.designator = 2), if_neg (by omega : ¬ f.designator = 3), if_pos hd]
  simp only [Nat.zero_or, Nat.shiftLeft_eq]
  norm_num
  rw [lor_eq_add 12 (pyAnd f.iis 15 * 4096) (pyAnd f.rrs 15 * 256) 4096 (by norm_num) (by omega) (by omega)]
  rw [lor_eq_add 8 (pyAnd f.iis 15 * 4096 + pyAnd f.rrs 15 * 256) (pyAnd f.los 1 * 64) 256 (by norm_num) (by omega) (by omega)]
  rw [lor_eq_add 6 (pyAnd f.iis 15 * 4096 + pyAnd f.rrs 15 * 256 + pyAnd f.los 1 * 64) (pyAnd f.tms 15) 64 (by norm_num) (by omega) (by omega)]
  rw [lor_eq_add 27 (pyAnd f.fmt 31 * 134217728) (pyAnd f.protocol 7 * 16777216) 134217728 (by norm_num) (by omega) (by omega)]
  rw [lor_eq_add 24 (pyAnd f.fmt 31 * 134217728 + pyAnd f.protocol 7 * 16777216) (pyAnd (clamp31 f.reply_request) 31 * 524288) 16777216 (by norm_num) (by omega) (by omega)]
  rw [lor_eq_add 19 (pyAnd f.fmt 31 * 134217728 + pyAnd f.protocol 7 * 16777216 + pyAnd (clamp31 f.reply_request) 31 * 524288) (pyAnd f.designator 7 * 65536) 524288 (by norm_num) (by omega) (by omega)]
  rw [lor_eq_add 16 (pyAnd f.fmt 31 * 134217728 + pyAnd f.protocol 7 * 16777216 + pyAnd (clamp31 f.reply_request) 31 * 524288 + pyAnd f.designator 7 * 65536) (pyAnd f.iis 15 * 4096 + pyAnd f.rrs 15 * 256 + pyAnd f.los 1 * 64 + pyAnd f.tms 15) 65536 (by norm_num) (by omega) (by omega)]
  omega

theorem word_val_dmiss (f : ModeSFields)
    (hf : f.fmt = 4 ∨ f.fmt = 5 ∨ f.fmt = 20 ∨ f.fmt = 21)
    (hd0 : ¬ f.designator = 0) (hd1 : ¬ f.designator = 1)
    (hd2 : ¬ f.designator = 2) (hd3 : ¬ f.designator = 3)
    (hd7 : ¬ f.designator = 7) :
    get_mode_s_data f =
      pyAnd f.fmt 31 * 134217728 + pyAnd f.protocol 7 * 16777216 + pyAnd (clamp31 f.reply_request) 31 * 524288 + pyAnd f.designator 7 * 65536 := by
  have b1 := pyAnd_lt f.fmt 31
  have b2 := pyAnd_lt f.protocol 7
  have b3 := pyAnd_lt (clamp31 f.reply_request) 31
  have b4 := pyAnd_lt f.designator 7
  simp only [get_mode_s_data]
  rw [if_pos hf, if_neg hd0, if_neg hd1, if_neg hd2, if_neg hd3, if_neg hd7]
  simp only [Nat.zero_or, Nat.shiftLeft_eq]
  norm_num
  rw [lor_eq_add 27 (pyAnd f.fmt 31 * 134217728) (pyAnd f.protocol 7 * 16777216) 134217728 (by norm_num) (by omega) (by omega)]
  rw [lor_eq_add 24 (pyAnd f.fmt 31 * 134217728 + pyAnd f.protocol 7 * 16777216) (pyAnd (clamp31 f.reply_request) 31 * 524288) 16777216 (by norm_num) (by omega) (by omega)]
  rw [lor_eq_add 19 (pyAnd f.fmt 31 * 134217728 + pyAnd f.protocol 7 * 16777216 + pyAnd (clamp31 f.reply_request) 31 * 524288) (pyAnd f.designator 7 * 65536) 524288 (by norm_num) (by omega) (by omega)]

theorem word_val_f11 (f : ModeSFields)
    (hf : f.fmt = 11 ∨ f.fmt = 17) :
    get_mode_s_data f =
      pyAnd f.fmt 31 * 134217728 + pyAnd f.prob_reply 15 * 8388608 + pyAnd f.iis 15 * 524288 + pyAnd f.code_label 7 * 65536 := by
  have b1 := pyAnd_lt f.fmt 31
  have b2 := pyAnd_lt f.prob_reply 15
  have b3 := pyAnd_lt f.iis 15
  have b4 := pyAnd_lt f.code_label 7
  simp only [get_mode_s_data]
  rw [if_neg (by omega : ¬ (f.fmt = 4 ∨ f.fmt = 5 ∨ f.fmt = 20 ∨ f.fmt = 21)), if_pos hf]
  simp only [Nat.zero_or, Nat.shiftLeft_eq]
  norm_num
  rw [lor_eq_add 27 (pyAnd f.fmt 31 * 134217728) (pyAnd f.prob_reply 15 * 8388608) 134217728 (by norm_num) (by omega) (by omega)]
  rw [lor_eq_add 23 (pyAnd f.fmt 31 * 134217728 + pyAnd f.prob_reply 15 * 8388608) (pyAnd f.iis 15 * 524288) 8388608 (by norm_num) (by omega) (by omega)]
  rw [lor_eq_add 19 (pyAnd f.fmt 31 * 134217728 + pyAnd f.prob_reply 15 * 8388608 + pyAnd f.iis 15 * 524288) (pyAnd f.code_label 7 * 65536) 524288 (by norm_num) (by omega) (by omega)]

theorem word_val_other (f : ModeSFields)
    (hf1 : ¬ (f.fmt = 4 ∨ f.fmt = 5 ∨ f.fmt = 20 ∨ f.fmt = 21))
    (hf2 : ¬ (f.fmt = 11 ∨ f.fmt = 17)) :
    get_mode_s_data f = pyAnd f.fmt 31 * 134217728 := by
  simp only [get_mode_s_data]
  rw [if_neg hf1, if_neg hf2]
  simp only [Nat.zero_or, Nat.shiftLeft_eq]

/-- C1: for every format in {4,5,20,21} and every designator in
{0,1,2,3,7}, encoding the fields with `get_mode_s_data` and then
extracting each bit range documented in the section 4.1 sub-layout for that
designator yields back exactly the masked (and, for reply-request and SIS,
pre-clamped) input field value, for all integer field inputs. -/
theorem mode_s_roundtrip (f : ModeSFields)
    (hf : f.fmt = 4 ∨ f.fmt = 5 ∨ f.fmt = 20 ∨ f.fmt = 21)
    (hd : f.designator = 0 ∨ f.designator = 1 ∨ f.designator = 2 ∨
          f.designator = 3 ∨ f.designator = 7) :
    extract (get_mode_s_data f) 1 5 = pyAnd f.fmt 31 ∧
    extract (get_mode_s_data f) 6 8 = pyAnd f.protocol 7 ∧
    extract (get_mode_s_data f) 9 13 = (clamp31 f.reply_request).toNat ∧
    extract (get_mode_s_data f) 14 16 = pyAnd f.designator 7 ∧
    (f.designator = 0 → extract (get_mode_s_data f) 17 20 = pyAnd f.iis 15) ∧
    (f.designator = 1 →
      extract (get_mode_s_data f) 17 20 = pyAnd f.iis 15 ∧
      extract (get_mode_s_data f) 21 22 = pyAnd f.mbs 3 ∧
      extract (get_mode_s_data f) 23 25 = pyAnd f.mes 7 ∧
      extract (get_mode_s_data f) 26 26 = pyAnd f.los 1 ∧
      extract (get_mode_s_data f) 27 28 = pyAnd f.rss 3 ∧
      extract (get_mode_s_data f) 29 32 = pyAnd f.tms 15) ∧
    (f.designator = 2 →
      extract (get_mode_s_data f) 22 24 = pyAnd f.tcs 7 ∧
      extract (get_mode_s_data f) 25 27 = pyAnd f.rcs 7 ∧
      extract (get_mode_s_data f) 28 29 = pyAnd f.sas 3) ∧
    (f.designator = 3 →
      extract (get_mode_s_data f) 17 21 = (clamp31 f.sis).toNat ∧
      extract (get_mode_s_data f) 22 22 = pyAnd f.lss 1 ∧
      extract (get_mode_s_data f) 23 26 = pyAnd f.rrs 15) ∧
    (f.designator = 7 →
      extract (get_mode_s_data f) 17 20 = pyAnd f.iis 15 ∧
      extract (get_mode_s_data f) 21 24 = pyAnd f.rrs 15 ∧
      extract (get_mode_s_data f) 26 26 = pyAnd f.los 1 ∧
      extract (get_mode_s_data f) 29 32 = pyAnd f.tms 15) := by
  rcases hd with hd | hd | hd | hd | hd
  · have hW := word_val_d0 f hf hd
    rw [clamp31_pyAnd] at hW
    have b1 := pyAnd_lt f.fmt 31
    have b2 := pyAnd_lt f.protocol 7
    have b3 := pyAnd_lt f.designator 7
    have b4 := pyAnd_lt f.iis 15
    have b5 := pyAnd_lt f.mbs 3
    have b6 := pyAnd_lt f.mes 7
    have b7 := pyAnd_lt f.los 1
    have b8 := pyAnd_lt f.rss 3
    have b9 := pyAnd_lt f.tms 15
    have b10 := pyAnd_lt f.rrs 15
    have b11 := pyAnd_lt f.tcs 7
    have b12 := pyAnd_lt f.rcs 7
    have b13 := pyAnd_lt f.sas 3
    have b14 := pyAnd_lt f.lss 1
    have b15 := clamp31_toNat_lt f.reply_request
    have b16 := clamp31_toNat_lt f.sis
    rw [hW]
    refine ⟨?_, ?_, ?_, ?_, ?_, ?_, ?_, ?_, ?_⟩
    simp only [extract, Nat.shiftRight_eq_div_pow]
    norm_num
    omega
    simp only [extract, Nat.shiftRight_eq_div_pow]
    norm_num
    omega
    simp only [extract, Nat.shiftRight_eq_div_pow]
    norm_num
    omega
    simp only [extract, Nat.shiftRight_eq_div_pow]
    norm_num
    omega
    intro _
    simp only [extract, Nat.shiftRight_eq_div_pow]
    norm_num
    omega
    intro h
    omega
    intro h
    omega
    intro h
    omega
    intro h
    omega
  · have hW := word_val_d1 f hf hd
    rw [clamp31_pyAnd] at hW
    have b1 := pyAnd_lt f.fmt 31
    have b2 := pyAnd_lt f.protocol 7
    have b3 := pyAnd_lt f.designator 7
    have b4 := pyAnd_lt f.iis 15
    have b5 := pyAnd_lt f.mbs 3
    have b6 := pyAnd_lt f.mes 7
    have b7 := pyAnd_lt f.los 1
    have b8 := pyAnd_lt f.rss 3
    have b9 := pyAnd_lt f.tms 15
    have b10 := pyAnd_lt f.rrs 15
    have b11 := pyAnd_lt f.tcs 7
    have b12 := pyAnd_lt f.rcs 7
    have b13 := pyAnd_lt f.sas 3
    have b14 := pyAnd_lt f.lss 1
    have b15 := clamp31_toNat_lt f.reply_request
    have b16 := clamp31_toNat_lt f.sis
    rw [hW]
    refine ⟨?_, ?_, ?_, ?_, ?_, ?_, ?_, ?_, ?_⟩
    simp only [extract, Nat.shiftRight_eq_div_pow]
    norm_num
    omega
    simp only [extract, Nat.shiftRight_eq_div_pow]
    norm_num
    omega
    simp only [extract, Nat.shiftRight_eq_div_pow]
    norm_num
    omega
    simp only [extract, Nat.shiftRight_eq_div_pow]
    norm_num
    omega
    intro h
    omega
    intro _
    refine ⟨?_, ?_, ?_, ?_, ?_, ?_⟩
    simp only [extract, Nat.shiftRight_eq_div_pow]
    norm_num
    omega
    simp only [extract, Nat.shiftRight_eq_div_pow]
    norm_num
    omega
    simp only [extract, Nat.shiftRight_eq_div_pow]
    norm_num
    omega
    simp only [extract, Nat.shiftRight_eq_div_pow]
    norm_num
    omega
    simp only [extract, Nat.shiftRight_eq_div_pow]
    norm_num
    omega
    simp only [extract, Nat.shiftRight_eq_div_pow]
    norm_num
    omega
    intro h
    omega
    intro h
    omega
    intro h
    omega
  · have hW := word_val_d2 f hf hd
    rw [clamp31_pyAnd] at hW
    have b1 := pyAnd_lt f.fmt 31
    have b2 := pyAnd_lt f.protocol 7
    have b3 := pyAnd_lt f.designator 7
    have b4 := pyAnd_lt f.iis 15
    have b5 := pyAnd_lt f.mbs 3
    have b6 := pyAnd_lt f.mes 7
    have b7 := pyAnd_lt f.los 1
    have b8 := pyAnd_lt f.rss 3
    have b9 := pyAnd_lt f.tms 15
    have b10 := pyAnd_lt f.rrs 15
    have b11 := pyAnd_lt f.tcs 7
    have b12 := pyAnd_lt f.rcs 7
    have b13 := pyAnd_lt f.sas 3
    have b14 := pyAnd_lt f.lss 1
    have b15 := clamp31_toNat_lt f.reply_request
    have b16 := clamp31_toNat_lt f.sis
    rw [hW]
    refine ⟨?_, ?_, ?_, ?_, ?_, ?_, ?_, ?_, ?_⟩
    simp only [extract, Nat.shiftRight_eq_div_pow]
    norm_num
    omega
    simp only [extract, Nat.shiftRight_eq_div_pow]
    norm_num
    omega
    simp only [extract, Nat.shiftRight_eq_div_pow]
    norm_num
    omega
    simp only [extract, Nat.shiftRight_eq_div_pow]
    norm_num
    omega
    intro h
    omega
    intro h
    omega
    intro _
    refine ⟨?_, ?_, ?_⟩
    simp only [extract, Nat.shiftRight_eq_div_pow]
    norm_num
    omega
    simp only [extract, Nat.shiftRight_eq_div_pow]
    norm_num
    omega
    simp only [extract, Nat.shiftRight_eq_div_pow]
    norm_num
    omega
    intro h
    omega
    intro h
    omega
  · have hW := word_val_d3 f hf hd
    rw [clamp31_pyAnd] at hW
    rw [clamp31_pyAnd f.sis] at hW
    have b1 := pyAnd_lt f.fmt 31
    have b2 := pyAnd_lt f.protocol 7
    have b3 := pyAnd_lt f.designator 7
    have b4 := pyAnd_lt f.iis 15
    have b5 := pyAnd_lt f.mbs 3
    have b6 := pyAnd_lt f.mes 7
    have b7 := pyAnd_lt f.los 1
    have b8 := pyAnd_lt f.rss 3
    have b9 := pyAnd_lt f.tms 15
    have b10 := pyAnd_lt f.rrs 15
    have b11 := pyAnd_lt f.tcs 7
    have b12 := pyAnd_lt f.rcs 7
    have b13 := pyAnd_lt f.sas 3
    have b14 := pyAnd_lt f.lss 1
    have b15 := clamp31_toNat_lt f.reply_request
    have b16 := clamp31_toNat_lt f.sis
    rw [hW]
    refine ⟨?_, ?_, ?_, ?_, ?_, ?_, ?_, ?_, ?_⟩
    simp only [extract, Nat.shiftRight_eq_div_pow]
    norm_num
    omega
    simp only [extract, Nat.shiftRight_eq_div_pow]
    norm_num
    omega
    simp only [extract, Nat.shiftRight_eq_div_pow]
    norm_num
    omega
    simp only [extract, Nat.shiftRight_eq_div_pow]
    norm_num
    omega
    intro h
    omega
    intro h
    omega
    intro h
    omega
    intro _
    refine ⟨?_, ?_, ?_⟩
    simp only [extract, Nat.shiftRight_eq_div_pow]
    norm_num
    omega
    simp only [extract, Nat.shiftRight_eq_div_pow]
    norm_num
    omega
    simp only [extract, Nat.shiftRight_eq_div_pow]
    norm_num
    omega
    intro h
    omega
  · have hW := word_val_d7 f hf hd
    rw [clamp31_pyAnd] at hW
    have b1 := pyAnd_lt f.fmt 31
    have b2 := pyAnd_lt f.protocol 7
    have b3 := pyAnd_lt f.designator 7
    have b4 := pyAnd_lt f.iis 15
    have b5 := pyAnd_lt f.mbs 3
    have b6 := pyAnd_lt f.mes 7
    have b7 := pyAnd_lt f.los 1
    have b8 := pyAnd_lt f.rss 3
    have b9 := pyAnd_lt f.tms 15
    have b10 := pyAnd_lt f.rrs 15
    have b11 := pyAnd_lt f.tcs 7
    have b12 := pyAnd_lt f.rcs 7
    have b13 := pyAnd_lt f.sas 3
    have b14 := pyAnd_lt f.lss 1
    have b15 := clamp31_toNat_lt f.reply_request
    have b16 := clamp31_toNat_lt f.sis
    rw [hW]
    refine ⟨?_, ?_, ?_, ?_, ?_, ?_, ?_, ?_, ?_⟩
    simp only [extract, Nat.shiftRight_eq_div_pow]
    norm_num
    omega
    simp only [extract, Nat.shiftRight_eq_div_pow]
    norm_num
    omega
    simp only [extract, Nat.shiftRight_eq_div_pow]
    norm_num
    omega
    simp only [extract, Nat.shiftRight_eq_div_pow]
    norm_num
    omega
    intro h
    omega
    intro h
    omega
    intro h
    omega
    intro h
    omega
    intro _
    refine ⟨?_, ?_, ?_, ?_⟩
    simp only [extract, Nat.shiftRight_eq_div_pow]
    norm_num
    omega
    simp only [extract, Nat.shiftRight_eq_div_pow]
    norm_num
    omega
    simp only [extract, Nat.shiftRight_eq_div_pow]
    norm_num
    omega
    simp only [extract, Nat.shiftRight_eq_div_pow]
    norm_num
    omega

/-- Witness for `mode_s_roundtrip` at the concrete input of the spec's
section 8 fixture (format 4, designator 1). -/
theorem mode_s_roundtrip_witness :
    ((4 : Int) = 4 ∨ (4 : Int) = 5 ∨ (4 : Int) = 20 ∨ (4 : Int) = 21) ∧
    ((1 : Int) = 0 ∨ (1 : Int) = 1 ∨ (1 : Int) = 2 ∨ (1 : Int) = 3 ∨
      (1 : Int) = 7) ∧
    extract (get_mode_s_data ⟨4, 1, 31, 1, 5, 2, 3, 1, 1, 9, 0, 0, 0, 0, 0, 0, 0, 0⟩) 9 13 =
      (clamp31 31).toNat ∧
    extract (get_mode_s_data ⟨4, 1, 31, 1, 5, 2, 3, 1, 1, 9, 0, 0, 0, 0, 0, 0, 0, 0⟩) 29 32 =
      pyAnd 9 15 :=
  ⟨by decide, by decide,
   (mode_s_roundtrip ⟨4, 1, 31, 1, 5, 2, 3, 1, 1, 9, 0, 0, 0, 0, 0, 0, 0, 0⟩
     (by decide) (by decide)).2.2.1,
   ((mode_s_roundtrip ⟨4, 1, 31, 1, 5, 2, 3, 1, 1, 9, 0, 0, 0, 0, 0, 0, 0, 0⟩
     (by decide) (by decide)).2.2.2.2.2.1 (by decide)).2.2.2.2.2⟩

/-- C5: encoding format=4, protocol=1, reply_request=31, designator=1, IIS=5,
MBS=2, MES=3, LOS=1, RSS=1, TMS=9 yields exactly 0x21F959D9 = 569989593,
whatever the remaining (unused for designator 1) widget values are. -/
theorem mode_s_fixture_value (rrs tcs rcs sas sis lss pr cl : Int) :
    get_mode_s_data ⟨4, 1, 31, 1, 5, 2, 3, 1, 1, 9, rrs, tcs, rcs, sas, sis, lss, pr, cl⟩ =
      569989593 := by
  rw [word_val_d1 _ (by norm_num) rfl]
  norm_num [pyAnd, clamp31]
  omega

/-- C4: bits outside the active format's defined sub-layout of the encoded
32-bit word are zero, for every input: for formats 11 and 17 bits 17-32 are
always zero; for any format outside {4,5,11,17,20,21} only bits 1-5 can be
non-zero (bits 6-32 are zero); and for formats {4,5,20,21} the bit ranges
the section 4.1 sub-layout leaves undefined for the active designator are
zero as well. -/
theorem mode_s_unused_bits_zero (f : ModeSFields) :
    (f.fmt = 11 ∨ f.fmt = 17 → extract (get_mode_s_data f) 17 32 = 0) ∧
    (¬ (f.fmt = 4 ∨ f.fmt = 5 ∨ f.fmt = 11 ∨ f.fmt = 17 ∨ f.fmt = 20 ∨
        f.fmt = 21) →
      extract (get_mode_s_data f) 6 32 = 0) ∧
    ((f.fmt = 4 ∨ f.fmt = 5 ∨ f.fmt = 20 ∨ f.fmt = 21) →
      (f.designator = 0 → extract (get_mode_s_data f) 21 32 = 0) ∧
      (f.designator = 2 → extract (get_mode_s_data f) 17 21 = 0 ∧
        extract (get_mode_s_data f) 30 32 = 0) ∧
      (f.designator = 3 → extract (get_mode_s_data f) 27 32 = 0) ∧
      (f.designator = 7 → extract (get_mode_s_data f) 25 25 = 0 ∧
        extract (get_mode_s_data f) 27 28 = 0) ∧
      (¬ (f.designator = 0 ∨ f.designator = 1 ∨ f.designator = 2 ∨
          f.designator = 3 ∨ f.designator = 7) →
        extract (get_mode_s_data f) 17 32 = 0)) := by
  refine ⟨?_, ?_, ?_⟩
  · intro hf
    have hW := word_val_f11 f hf
    rw [hW]
    have b1 := pyAnd_lt f.fmt 31
    have b2 := pyAnd_lt f.prob_reply 15
    have b3 := pyAnd_lt f.iis 15
    have b4 := pyAnd_lt f.code_label 7
    simp only [extract, Nat.shiftRight_eq_div_pow]
    norm_num
    omega
  · intro hf
    have hW := word_val_other f (by omega) (by omega)
    rw [hW]
    simp only [extract, Nat.shiftRight_eq_div_pow]
    norm_num
  · intro hf
    refine ⟨?_, ?_, ?_, ?_, ?_⟩
    · intro hd
      have hW := word_val_d0 f hf hd
      rw [hW]
      have b1 := pyAnd_lt f.fmt 31
      have b2 := pyAnd_lt f.protocol 7
      have b3 := pyAnd_lt (clamp31 f.reply_request) 31
      have b4 := pyAnd_lt f.designator 7
      have b5 := pyAnd_lt f.iis 15
      have b6 := pyAnd_lt f.tcs 7
      have b7 := pyAnd_lt f.rcs 7
      have b8 := pyAnd_lt f.sas 3
      have b9 := pyAnd_lt (clamp31 f.sis) 31
      have b10 := pyAnd_lt f.lss 1
      have b11 := pyAnd_lt f.rrs 15
      have b12 := pyAnd_lt f.los 1
      have b13 := pyAnd_lt f.tms 15
      simp only [extract, Nat.shiftRight_eq_div_pow]
      norm_num
      omega
    · intro hd
      have hW := word_val_d2 f hf hd
      rw [hW]
      have b1 := pyAnd_lt f.fmt 31
      have b2 := pyAnd_lt f.protocol 7
      have b3 := pyAnd_lt (clamp31 f.reply_request) 31
      have b4 := pyAnd_lt f.designator 7
      have b5 := pyAnd_lt f.iis 15
      have b6 := pyAnd_lt f.tcs 7
      have b7 := pyAnd_lt f.rcs 7
      have b8 := pyAnd_lt f.sas 3
      have b9 := pyAnd_lt (clamp31 f.sis) 31
      have b10 := pyAnd_lt f.lss 1
      have b11 := pyAnd_lt f.rrs 15
      have b12 := pyAnd_lt f.los 1
      have b13 := pyAnd_lt f.tms 15
      constructor
      simp only [extract, Nat.shiftRight_eq_div_pow]
      norm_num
      omega
      simp only [extract, Nat.shiftRight_eq_div_pow]
      norm_num
      omega
    · intro hd
      have hW := word_val_d3 f hf hd
      rw [hW]
      have b1 := pyAnd_lt f.fmt 31
      have b2 := pyAnd_lt f.protocol 7
      have b3 := pyAnd_lt (clamp31 f.reply_request) 31
      have b4 := pyAnd_lt f.designator 7
      have b5 := pyAnd_lt f.iis 15
      have b6 := pyAnd_lt f.tcs 7
      have b7 := pyAnd_lt f.rcs 7
      have b8 := pyAnd_lt f.sas 3
      have b9 := pyAnd_lt (clamp31 f.sis) 31
      have b10 := pyAnd_lt f.lss 1
      have b11 := pyAnd_lt f.rrs 15
      have b12 := pyAnd_lt f.los 1
      have b13 := pyAnd_lt f.tms 15
      simp only [extract, Nat.shiftRight_eq_div_pow]
      norm_num
      omega
    · intro hd
      have hW := word_val_d7 f hf hd
      rw [hW]
      have b1 := pyAnd_lt f.fmt 31
      have b2 := pyAnd_lt f.protocol 7
      have b3 := pyAnd_lt (clamp31 f.reply_request) 31
      have b4 := pyAnd_lt f.designator 7
      have b5 := pyAnd_lt f.iis 15
      have b6 := pyAnd_lt f.tcs 7
      have b7 := pyAnd_lt f.rcs 7
      have b8 := pyAnd_lt f.sas 3
      have b9 := pyAnd_lt (clamp31 f.sis) 31
      have b10 := pyAnd_lt f.lss 1
      have b11 := pyAnd_lt f.rrs 15
      have b12 := pyAnd_lt f.los 1
      have b13 := pyAnd_lt f.tms 15
      constructor
      simp only [extract, Nat.shiftRight_eq_div_pow]
      norm_num
      omega
      simp only [extract, Nat.shiftRight_eq_div_pow]
      norm_num
      omega
    · intro hd
      have hW := word_val_dmiss f hf (by omega) (by omega) (by omega) (by omega) (by omega)
      rw [hW]
      have b1 := pyAnd_lt f.fmt 31
      have b2 := pyAnd_lt f.protocol 7
      have b3 := pyAnd_lt (clamp31 f.reply_request) 31
      have b4 := pyAnd_lt f.designator 7
      have b5 := pyAnd_lt f.iis 15
      have b6 := pyAnd_lt f.tcs 7
      have b7 := pyAnd_lt f.rcs 7
      have b8 := pyAnd_lt f.sas 3
      have b9 := pyAnd_lt (clamp31 f.sis) 31
      have b10 := pyAnd_lt f.lss 1
      have b11 := pyAnd_lt f.rrs 15
      have b12 := pyAnd_lt f.los 1
      have b13 := pyAnd_lt f.tms 15
      simp only [extract, Nat.shiftRight_eq_div_pow]
      norm_num
      omega

/-- Witness for `mode_s_unused_bits_zero` at format 11. -/
theorem mode_s_unused_bits_zero_witness :
    ((11 : Int) = 11 ∨ (11 : Int) = 17) ∧
    extract (get_mode_s_data ⟨11, 0, 0, 0, 3, 0, 0, 0, 0, 0, 0, 0, 0, 0, 0, 0, 7, 2⟩) 17 32 = 0 :=
  ⟨by decide, (mode_s_unused_bits_zero ⟨11, 0, 0, 0, 3, 0, 0, 0, 0, 0, 0, 0, 0, 0, 0, 0, 7, 2⟩).1 (by decide)⟩

/-! ## Aircraft address decode (src/interrogations.py lines 326-331) -/

/-- Whitespace test backing `str.strip()`; the source only ever strips ASCII
whitespace, modelled here by the usual five characters plus vertical tab. -/
def pyIsSpace (c : Char) : Bool :=
  c = ' ' || c = '\t' || c = '\n' || c = '\r' || c.toNat = 11 || c.toNat = 12

/-- Model of Python's `str.strip()`: drop leading and trailing whitespace. -/
def pyStrip (s : List Char) : List Char :=
  ((s.dropWhile pyIsSpace).reverse.dropWhile pyIsSpace).reverse

/-- Value of one hexadecimal digit (0-9, a-f, A-F by character code),
`none` for a non-digit. -/
def hexDigitVal (c : Char) : Option Nat :=
  if 48 ≤ c.toNat ∧ c.toNat ≤ 57 then some (c.toNat - 48)
  else if 97 ≤ c.toNat ∧ c.toNat ≤ 102 then some (c.toNat - 87)
  else if 65 ≤ c.toNat ∧ c.toNat ≤ 70 then some (c.toNat - 55)
  else none

/-- Accumulating base-16 value of a digit string; `none` on the first
non-digit. -/
def hexDigitsVal (acc : Nat) : List Char → Option Nat
  | [] => some acc
  | c :: t =>
    match hexDigitVal c with
    | some d => hexDigitsVal (acc * 16 + d) t
    | none => none

/-- Digits stage of `int(s, 16)`: at least one hex digit must remain. -/
def pyIntHexCore (sign : Int) (u : List Char) : Option Int :=
  if u = [] then none
  else (hexDigitsVal 0 u).map fun n => sign * (n : Int)

/-- Optional `0x`/`0X` prefix stage of `int(s, 16)`. -/
def pyIntHexDigits (sign : Int) (t : List Char) : Option Int :=
  match t with
  | '0' :: 'x' :: r => pyIntHexCore sign r
  | '0' :: 'X' :: r => pyIntHexCore sign r
  | r => pyIntHexCore sign r

/-- Model of Python's `int(s, 16)`: strip whitespace, optional sign, optional
`0x`/`0X` prefix, then one or more hex digits; `none` models the ValueError
raised otherwise.  (CPython additionally accepts underscore digit grouping,
not modelled here; no claim depends on it.) -/
def pyIntBase16 (s0 : List Char) : Option Int :=
  match pyStrip s0 with
  | '+' :: r => pyIntHexDigits 1 r
  | '-' :: r => pyIntHexDigits (-1) r
  | r => pyIntHexDigits 1 r

/-- Aircraft-address decode of `get_mode_s_data` (src/interrogations.py lines
326-331): strip the widget string, empty maps to 0, otherwise
`int(s, 16)`, and the `except ValueError` branch maps a parse failure
to 0. -/
def decode_address (s : String) : Int :=
  let t := pyStrip s.toList
  if t = [] then 0
  else
    match pyIntBase16 t with
    | some n => n
    | none => 0

theorem hexDigitVal_lt (c : Char) (d : Nat) (h : hexDigitVal c = some d) :
    d < 16 := by
  simp only [hexDigitVal] at h
  split_ifs at h <;> simp_all <;> omega

theorem hexDigitVal_not_space (c : Char) (h : (hexDigitVal c).isSome) :
    pyIsSpace c = false := by
  have h48 : 48 ≤ c.toNat := by
    simp only [hexDigitVal] at h
    split_ifs at h <;> simp_all <;> omega
  cases hP : pyIsSpace c with
  | false => rfl
  | true =>
    simp only [pyIsSpace, Bool.or_eq_true, decide_eq_true_eq] at hP
    rcases hP with ((((hc | hc) | hc) | hc) | hc) | hc
    · exact absurd h48 (by rw [hc]; decide)
    · exact absurd h48 (by rw [hc]; decide)
    · exact absurd h48 (by rw [hc]; decide)
    · exact absurd h48 (by rw [hc]; decide)
    · omega
    · omega

theorem dropWhile_eq_self_of (p : Char → Bool) :
    ∀ l : List Char, (∀ c ∈ l, p c = false) → l.dropWhile p = l := by
  intro l h
  induction l with
  | nil => rfl
  | cons c t ih =>
    simp only [List.dropWhile]
    rw [h c (by simp)]

theorem pyStrip_eq_self_of (l : List Char)
    (h : ∀ c ∈ l, pyIsSpace c = false) : pyStrip l = l := by
  unfold pyStrip
  rw [dropWhile_eq_self_of _ l h,
      dropWhile_eq_self_of _ l.reverse (by simpa using h), List.reverse_reverse]

theorem hexDigitsVal_lt :
    ∀ (l : List Char) (acc n : Nat), hexDigitsVal acc l = some n →
      n < (acc + 1) * 16 ^ l.length := by
  intro l
  induction l with
  | nil =>
    intro acc n h
    simp only [hexDigitsVal, Option.some_inj] at h
    subst h
    simp
  | cons c t ih =>
    intro acc n h
    simp only [hexDigitsVal] at h
    cases hdv : hexDigitVal c with
    | none => rw [hdv] at h; simp at h
    | some d =>
      rw [hdv] at h
      have hd := hexDigitVal_lt c d hdv
      have ih2 := ih (acc * 16 + d) n h
      have hle : (acc * 16 + d + 1) * 16 ^ t.length ≤
          ((acc + 1) * 16) * 16 ^ t.length :=
        Nat.mul_le_mul_right _ (by omega)
      simp only [List.length_cons]
      calc n < (acc * 16 + d + 1) * 16 ^ t.length := ih2
        _ ≤ ((acc + 1) * 16) * 16 ^ t.length := hle
        _ = (acc + 1) * 16 ^ (t.length + 1) := by ring

theorem hexDigitsVal_isSome :
    ∀ (l : List Char) (acc : Nat), (∀ c ∈ l, (hexDigitVal c).isSome) →
      ∃ n, hexDigitsVal acc l = some n := by
  intro l
  induction l with
  | nil => intro acc _; exact ⟨acc, rfl⟩
  | cons c t ih =>
    intro acc h
    have hc := h c (by simp)
    cases hdv : hexDigitVal c with
    | none => rw [hdv] at hc; simp at hc
    | some d =>
      obtain ⟨n, hn⟩ := ih (acc * 16 + d) (fun x hx => h x (by simp [hx]))
      exact ⟨n, by simp only [hexDigitsVal]; rw [hdv]; exact hn⟩

theorem pyIntBase16_all_hex (t : List Char) (hne : t ≠ [])
    (hhex : ∀ c ∈ t, (hexDigitVal c).isSome) :
    ∃ n, hexDigitsVal 0 t = some n ∧ pyIntBase16 t = some ((n : Nat) : Int) := by
  obtain ⟨n, hn⟩ := hexDigitsVal_isSome t 0 hhex
  refine ⟨n, hn, ?_⟩
  have hns : ∀ c ∈ t, pyIsSpace c = false := fun c hc =>
    hexDigitVal_not_space c (hhex c hc)
  have hstrip : pyStrip t = t := pyStrip_eq_self_of t hns
  have hcore : pyIntHexCore 1 t = some ((n : Nat) : Int) := by
    rw [pyIntHexCore, if_neg hne, hn]
    simp
  have hdigits : pyIntHexDigits 1 t = some ((n : Nat) : Int) := by
    rw [pyIntHexDigits]
    · exact hcore
    · intro r heq
      have h1 := hhex 'x' (by rw [heq]; simp)
      exact absurd h1 (by decide)
    · intro r heq
      have h1 := hhex 'X' (by rw [heq]; simp)
      exact absurd h1 (by decide)
  rw [pyIntBase16, hstrip]
  split
  · rename_i r
    exact absurd (hhex '+' (by simp)) (by decide)
  · rename_i r
    exact absurd (hhex '-' (by simp)) (by decide)
  · exact hdigits

/-- C6 counterexample: the address decode is not bounded by 24 bits.  A
7-digit hexadecimal aircraft-address string parses to `2 ^ 24`, falling
outside the claimed range `[0, 2 ^ 24)`; no masking or length check exists
in the source. -/
theorem decode_address_not_24bit :
    decode_address "1000000" = 16777216 ∧
    ¬ decode_address "1000000" < 2 ^ 24 := by
  constructor
  · decide
  · decide

/-- C6 (amended): the address decode strips whitespace, maps the empty string
to 0, parses hex as base-16, and maps any parse failure to 0 without raising;
whenever the stripped input consists of at most 6 hex digits the result lies
in `[0, 2 ^ 24)` (the claimed 24-bit bound holds only under that length
restriction, not for every input string). -/
theorem decode_address_spec :
    decode_address "0A1B2C" = 0x0A1B2C ∧
    decode_address "" = 0 ∧
    decode_address "ZZZZZZ" = 0 ∧
    ∀ s : String, (pyStrip s.toList).length ≤ 6 →
      (∀ c ∈ pyStrip s.toList, (hexDigitVal c).isSome) →
      0 ≤ decode_address s ∧ decode_address s < 2 ^ 24 := by
  refine ⟨by decide, by decide, by decide, ?_⟩
  intro s hlen hhex
  by_cases hte : pyStrip s.toList = []
  · rw [decode_address, if_pos hte]
    norm_num
  · obtain ⟨n, hn, hp⟩ := pyIntBase16_all_hex _ hte hhex
    have hb := hexDigitsVal_lt _ 0 n hn
    have hpow : (16 : Nat) ^ (pyStrip s.toList).length ≤ 16 ^ 6 :=
      Nat.pow_le_pow_right (by norm_num) hlen
    have hlt : n < 16777216 := by
      have h6 : (16 : Nat) ^ 6 = 16777216 := by norm_num
      omega
    rw [decode_address, if_neg hte, hp]
    constructor
    · show (0 : Int) ≤ ((n : Nat) : Int)
      exact_mod_cast Nat.zero_le n
    · show ((n : Nat) : Int) < 2 ^ 24
      exact_mod_cast hlt

/-- Witness for the amended address-decode theorem at the 6-digit input
of the spec's examples. -/
theorem decode_address_spec_witness :
    ((pyStrip ("0A1B2C" : String).toList).length ≤ 6 ∧
      (∀ c ∈ pyStrip ("0A1B2C" : String).toList, (hexDigitVal c).isSome)) ∧
    (0 ≤ decode_address "0A1B2C" ∧ decode_address "0A1B2C" < 2 ^ 24) :=
  ⟨⟨by decide, by decide⟩, decode_address_spec.2.2.2 "0A1B2C" (by decide) (by decide)⟩

/-! ## Message framer and receive path (src/network/client.py lines 120-157) -/

/-- Values of the JSON wire format (numbers restricted to integers: every
numeric field this application sends or receives is integral or a Python
float produced from such an input; the claims settled here do not depend on
float representation). -/
inductive Json where
  | null : Json
  | bool : Bool → Json
  | num : Int → Json
  | str : List Char → Json
  | arr : List Json → Json
  | obj : List (List Char × Json) → Json

/-- The `isinstance(message, dict)` test of `_process_buffer` line 154. -/
def Json.isObj : Json → Bool
  | .obj _ => true
  | _ => false

/-- One step of the `while "\n" in self._buffer` loop of `_process_buffer`
(lines 147-148): scan the buffer, emitting the text before each newline as
one segment (the source's `message_str`) and keeping the text after the last
newline as the new buffer.  `cur` is the partial segment scanned so far. -/
def procSegs (cur : List Char) : List Char → List (List Char) × List Char
  | [] => ([], cur)
  | c :: rest =>
    if c = '\n' then
      ((procSegs [] rest).1.cons cur, (procSegs [] rest).2)
    else
      procSegs (cur ++ [c]) rest

/-- Outcome of one loop body of `_process_buffer` (lines 149-157) on one
segment, given the abstract parse `loads` standing for `json.loads`:
whitespace-only segments are skipped; a parsed dict is dispatched to the
callback (the callback is registered, so `self.message_callback` is truthy);
a parsed non-dict is dropped; a parse failure produces one warning. -/
def handleSeg (loads : List Char → Option Json) (seg : List Char) :
    List Json × List (List Char) :=
  if pyStrip seg = [] then ([], [])
  else
    match loads seg with
    | some v => if v.isObj then ([v], []) else ([], [])
    | none => ([], [seg])

/-- Callback invocations and warnings of one `_process_buffer` run, in
segment order. -/
def outsOf (loads : List Char → Option Json) (segs : List (List Char)) :
    List Json × List (List Char) :=
  ((segs.map fun s => (handleSeg loads s).1).flatten,
   (segs.map fun s => (handleSeg loads s).2).flatten)

/-- Full `_process_buffer` (lines 145-157): extract every complete segment,
handle each in order, and return (messages dispatched, warnings, remaining
buffer). -/
def process_buffer (loads : List Char → Option Json) (buf : List Char) :
    (List Json × List (List Char)) × List Char :=
  (outsOf loads (procSegs [] buf).1, (procSegs [] buf).2)

/-- One receive event of `receive_data` (lines 126-135): append the received
chunk to `self._buffer`, run `_process_buffer`, and accumulate its callback
invocations and warnings after those already made. -/
def receive_step (loads : List Char → Option Json)
    (st : (List Json × List (List Char)) × List Char) (chunk : List Char) :
    (List Json × List (List Char)) × List Char :=
  ((st.1.1 ++ (process_buffer loads (st.2 ++ chunk)).1.1,
    st.1.2 ++ (process_buffer loads (st.2 ++ chunk)).1.2),
   (process_buffer loads (st.2 ++ chunk)).2)

/-- A whole sequence of receive events starting from the empty buffer of a
fresh connection (`self._buffer = ""`, line 64). -/
def receive_run (loads : List Char → Option Json)
    (chunks : List (List Char)) : (List Json × List (List Char)) × List Char :=
  chunks.foldl (receive_step loads) (([], []), [])

theorem procSegs_append (x : List Char) :
    ∀ (cur y : List Char),
      procSegs cur (x ++ y) =
        ((procSegs cur x).1 ++ (procSegs (procSegs cur x).2 y).1,
         (procSegs (procSegs cur x).2 y).2) := by
  induction x with
  | nil => intro cur y; simp [procSegs]
  | cons c t ih =>
    intro cur y
    by_cases hc : c = '\n'
    · subst hc
      simp only [List.cons_append, procSegs, eq_self_iff_true, if_true,
        List.append_eq]
      rw [ih [] y]
    · simp only [List.cons_append, procSegs, if_neg hc, List.append_eq]
      exact ih (cur ++ [c]) y

theorem procSegs_no_newline (mid : List Char) (hm : '\n' ∉ mid) :
    ∀ (cur rest : List Char),
      procSegs cur (mid ++ rest) = procSegs (cur ++ mid) rest := by
  induction mid with
  | nil => intro cur rest; simp
  | cons c t ih =>
    intro cur rest
    have hc : ¬ c = '\n' := fun h => hm (by simp [h])
    simp only [List.cons_append, procSegs, if_neg hc, List.append_eq]
    rw [ih (by intro h; exact hm (by simp [h])) (cur ++ [c]) rest]
    simp

theorem procSegs_residual_no_newline :
    ∀ (buf cur : List Char), '\n' ∉ cur → '\n' ∉ (procSegs cur buf).2 := by
  intro buf
  induction buf with
  | nil => intro cur h; simpa [procSegs] using h
  | cons c t ih =>
    intro cur h
    by_cases hc : c = '\n'
    · subst hc
      simp only [procSegs, if_pos rfl]
      exact ih [] (by simp)
    · simp only [procSegs, if_neg hc]
      exact ih (cur ++ [c]) (by simp [h, hc, Ne.symm hc])

theorem procSegs_no_newline_nil (mid : List Char) (hm : '\n' ∉ mid)
    (rest : List Char) : procSegs [] (mid ++ rest) = procSegs mid rest := by
  have h := procSegs_no_newline mid hm [] rest
  simpa using h

theorem outsOf_append (loads : List Char → Option Json)
    (a b : List (List Char)) :
    outsOf loads (a ++ b) =
      ((outsOf loads a).1 ++ (outsOf loads b).1,
       (outsOf loads a).2 ++ (outsOf loads b).2) := by
  simp [outsOf]

theorem process_buffer_append (loads : List Char → Option Json)
    (x y : List Char) :
    process_buffer loads (x ++ y) =
      (((process_buffer loads x).1.1 ++
          (process_buffer loads ((process_buffer loads x).2 ++ y)).1.1,
        (process_buffer loads x).1.2 ++
          (process_buffer loads ((process_buffer loads x).2 ++ y)).1.2),
       (process_buffer loads ((process_buffer loads x).2 ++ y)).2) := by
  have hres : '\n' ∉ (procSegs [] x).2 :=
    procSegs_residual_no_newline x [] (by simp)
  simp only [process_buffer]
  rw [procSegs_append x [] y, ← procSegs_no_newline_nil _ hres y]
  rw [outsOf_append]

theorem receive_step_eq (loads : List Char → Option Json)
    (out1 : List Json) (out2 : List (List Char)) (buf c : List Char) :
    receive_step loads ((out1, out2), buf) c =
      ((out1 ++ (process_buffer loads (buf ++ c)).1.1,
        out2 ++ (process_buffer loads (buf ++ c)).1.2),
       (process_buffer loads (buf ++ c)).2) := rfl

theorem receive_foldl_eq (loads : List Char → Option Json) :
    ∀ (chunks : List (List Char)) (out1 : List Json)
      (out2 : List (List Char)) (buf : List Char), '\n' ∉ buf →
      chunks.foldl (receive_step loads) ((out1, out2), buf) =
        ((out1 ++ (process_buffer loads (buf ++ chunks.flatten)).1.1,
          out2 ++ (process_buffer loads (buf ++ chunks.flatten)).1.2),
         (process_buffer loads (buf ++ chunks.flatten)).2) := by
  intro chunks
  induction chunks with
  | nil =>
    intro out1 out2 buf hb
    have hsegs : procSegs [] buf = ([], buf) := by
      have h := procSegs_no_newline buf hb [] []
      simpa [procSegs] using h
    simp [process_buffer, hsegs, outsOf]
  | cons c cs ih =>
    intro out1 out2 buf hb
    have hres : '\n' ∉ (process_buffer loads (buf ++ c)).2 :=
      procSegs_residual_no_newline (buf ++ c) [] (by simp)
    simp only [List.foldl_cons, receive_step_eq]
    rw [ih _ _ _ hres]
    have hflat : (c :: cs).flatten = c ++ cs.flatten := by simp
    rw [hflat, ← List.append_assoc buf c cs.flatten,
      process_buffer_append loads (buf ++ c) cs.flatten]
    simp

/-- The messages a run of receive events dispatches, the warnings it logs,
and the buffer it leaves are those of a single receive event carrying the
whole concatenated stream. -/
theorem receive_run_flatten (loads : List Char → Option Json)
    (chunks : List (List Char)) :
    receive_run loads chunks = process_buffer loads chunks.flatten := by
  unfold receive_run
  rw [receive_foldl_eq loads chunks [] [] [] (by simp)]
  simp

theorem handleSeg_obj (loads : List Char → Option Json) (s : List Char)
    (o : List (List Char × Json)) (hs : pyStrip s ≠ [])
    (hl : loads s = some (Json.obj o)) :
    handleSeg loads s = ([Json.obj o], []) := by
  rw [handleSeg, if_neg hs, hl]
  rfl

theorem handleSeg_skip (loads : List Char → Option Json) (s : List Char)
    (hs : pyStrip s = []) : handleSeg loads s = ([], []) := by
  rw [handleSeg, if_pos hs]

theorem handleSeg_bad (loads : List Char → Option Json) (s : List Char)
    (hs : pyStrip s ≠ []) (hl : loads s = none) :
    handleSeg loads s = ([], [s]) := by
  rw [handleSeg, if_neg hs, hl]

theorem handleSeg_nonobj (loads : List Char → Option Json) (s : List Char)
    (v : Json) (hl : loads s = some v) (hv : v.isObj = false) :
    handleSeg loads s = ([], []) := by
  by_cases hs : pyStrip s = []
  · exact handleSeg_skip loads s hs
  · rw [handleSeg, if_neg hs, hl]
    show (if v.isObj = true then ([v], ([] : List (List Char)))
      else ([], [])) = (([], []) : List Json × List (List Char))
    rw [hv]
    simp

/-- Processing a buffer that starts with one complete frame handles that
frame's segment and continues with the rest of the buffer. -/
theorem process_buffer_frame (loads : List Char → Option Json)
    (s rest : List Char) (hs : '\n' ∉ s) :
    process_buffer loads (s ++ '\n' :: rest) =
      (((handleSeg loads s).1 ++ (process_buffer loads rest).1.1,
        (handleSeg loads s).2 ++ (process_buffer loads rest).1.2),
       (process_buffer loads rest).2) := by
  simp only [process_buffer]
  rw [procSegs_no_newline_nil s hs ('\n' :: rest)]
  simp only [procSegs, eq_self_iff_true, if_true]
  simp [outsOf]

theorem process_buffer_nil (loads : List Char → Option Json) :
    process_buffer loads [] = (([], []), []) := rfl

/-- Invariance at the decoded-text level: the dispatched message sequence is
a function of the concatenation of the per-event decoded chunks (how the
decoded characters are split across receive events is irrelevant); two
decoded newline-terminated frames in one event are dispatched as two
distinct messages in order, and one frame whose decoded text is split across
two events is dispatched exactly once. -/
theorem receive_text_invariance :
    (∀ (loads : List Char → Option Json) (chunks1 chunks2 : List (List Char)),
      chunks1.flatten = chunks2.flatten →
      (receive_run loads chunks1).1.1 = (receive_run loads chunks2).1.1) ∧
    (∀ (loads : List Char → Option Json) (s1 s2 : List Char)
      (o1 o2 : List (List Char × Json)),
      '\n' ∉ s1 → '\n' ∉ s2 → pyStrip s1 ≠ [] → pyStrip s2 ≠ [] →
      loads s1 = some (Json.obj o1) → loads s2 = some (Json.obj o2) →
      (receive_run loads [s1 ++ '\n' :: (s2 ++ ['\n'])]).1.1 =
        [Json.obj o1, Json.obj o2]) ∧
    (∀ (loads : List Char → Option Json) (x y s : List Char)
      (o : List (List Char × Json)),
      x ++ y = s ++ ['\n'] → '\n' ∉ s → pyStrip s ≠ [] →
      loads s = some (Json.obj o) →
      (receive_run loads [x, y]).1.1 = [Json.obj o]) := by
  refine ⟨?_, ?_, ?_⟩
  · intro loads c1 c2 h
    rw [receive_run_flatten, receive_run_flatten, h]
  · intro loads s1 s2 o1 o2 h1 h2 hs1 hs2 hl1 hl2
    rw [receive_run_flatten]
    have hflat : ([s1 ++ '\n' :: (s2 ++ ['\n'])] : List (List Char)).flatten =
        s1 ++ '\n' :: (s2 ++ ['\n']) := by simp
    have h2e : s2 ++ ['\n'] = s2 ++ '\n' :: ([] : List Char) := rfl
    rw [hflat, h2e, process_buffer_frame loads s1 _ h1,
      process_buffer_frame loads s2 [] h2, process_buffer_nil,
      handleSeg_obj loads s1 o1 hs1 hl1, handleSeg_obj loads s2 o2 hs2 hl2]
    simp
  · intro loads x y s o hxy hs hps hl
    rw [receive_run_flatten]
    have hflat : ([x, y] : List (List Char)).flatten = x ++ y := by simp
    have he : s ++ ['\n'] = s ++ '\n' :: ([] : List Char) := rfl
    rw [hflat, hxy, he, process_buffer_frame loads s [] hs,
      process_buffer_nil, handleSeg_obj loads s o hps hl]
    simp

/-- C3: a malformed (non-parsing) frame between two valid frames is discarded
alone, with one warning, and both valid frames are still dispatched in
order; the stream is not aborted.  Empty or whitespace-only segments are
skipped entirely. -/
theorem malformed_frame_skipped :
    (∀ (loads : List Char → Option Json) (s1 s2 s3 : List Char)
      (o1 o3 : List (List Char × Json)),
      '\n' ∉ s1 → '\n' ∉ s2 → '\n' ∉ s3 →
      pyStrip s1 ≠ [] → pyStrip s2 ≠ [] → pyStrip s3 ≠ [] →
      loads s1 = some (Json.obj o1) → loads s2 = none →
      loads s3 = some (Json.obj o3) →
      process_buffer loads (s1 ++ '\n' :: (s2 ++ '\n' :: (s3 ++ ['\n']))) =
        (([Json.obj o1, Json.obj o3], [s2]), [])) ∧
    (∀ (loads : List Char → Option Json) (s rest : List Char),
      '\n' ∉ s → pyStrip s = [] →
      process_buffer loads (s ++ '\n' :: rest) = process_buffer loads rest) := by
  constructor
  · intro loads s1 s2 s3 o1 o3 h1 h2 h3 hp1 hp2 hp3 hl1 hl2 hl3
    have he : s3 ++ ['\n'] = s3 ++ '\n' :: ([] : List Char) := rfl
    rw [he, process_buffer_frame loads s1 _ h1,
      process_buffer_frame loads s2 _ h2,
      process_buffer_frame loads s3 [] h3, process_buffer_nil,
      handleSeg_obj loads s1 o1 hp1 hl1, handleSeg_bad loads s2 hp2 hl2,
      handleSeg_obj loads s3 o3 hp3 hl3]
    simp
  · intro loads s rest hs hps
    rw [process_buffer_frame loads s rest hs, handleSeg_skip loads s hps]
    simp

/-- C10: a frame whose segment parses as JSON but whose top-level value is
not an object invokes no callback and emits no warning; it is silently
dropped and processing of the remaining buffer continues unchanged. -/
theorem nonobject_frame_dropped :
    ∀ (loads : List Char → Option Json) (s : List Char) (v : Json)
      (rest : List Char),
      '\n' ∉ s → loads s = some v → v.isObj = false →
      process_buffer loads (s ++ '\n' :: rest) = process_buffer loads rest := by
  intro loads s v rest hs hl hv
  rw [process_buffer_frame loads s rest hs, handleSeg_nonobj loads s v hl hv]
  simp

/-! ## Concrete model of `json.loads` (stdlib call at client.py line 153),
on the JSON subset exercised by this application. -/

/-- Drop insignificant JSON whitespace from the front. -/
def dropJsonWs : List Char → List Char
  | [] => []
  | c :: t =>
    if c = ' ' ∨ c = '\t' ∨ c = '\n' ∨ c = '\x0d' then dropJsonWs t else c :: t

/-- Strip an expected literal token from the front of the input. -/
def stripTok : List Char → List Char → Option (List Char)
  | [], s => some s
  | c :: t, d :: s => if d = c then stripTok t s else none
  | _ :: _, [] => none

/-- Accumulate a run of decimal digits. -/
def digitsAcc (acc : Nat) : List Char → Nat × List Char
  | [] => (acc, [])
  | c :: t =>
    if 48 ≤ c.toNat ∧ c.toNat ≤ 57 then
      digitsAcc (acc * 10 + (c.toNat - 48)) t
    else (acc, c :: t)

/-- Integer literal, with optional leading minus. -/
def jsonNumber : List Char → Option (Json × List Char)
  | '-' :: c :: t =>
    if 48 ≤ c.toNat ∧ c.toNat ≤ 57 then
      some (.num (-((digitsAcc (c.toNat - 48) t).1 : Int)),
            (digitsAcc (c.toNat - 48) t).2)
    else none
  | c :: t =>
    if 48 ≤ c.toNat ∧ c.toNat ≤ 57 then
      some (.num ((digitsAcc (c.toNat - 48) t).1 : Int),
            (digitsAcc (c.toNat - 48) t).2)
    else none
  | [] => none

/-- String body after the opening quote, with the escapes this application
can produce. -/
def jsonString : List Char → Option (List Char × List Char)
  | [] => none
  | c :: t =>
    if c = '"' then some ([], t)
    else if c = '\\' then
      match t with
      | 'n' :: t2 => (jsonString t2).map fun p => ('\n' :: p.1, p.2)
      | 't' :: t2 => (jsonString t2).map fun p => ('\t' :: p.1, p.2)
      | 'r' :: t2 => (jsonString t2).map fun p => ('\x0d' :: p.1, p.2)
      | '"' :: t2 => (jsonString t2).map fun p => ('"' :: p.1, p.2)
      | '\\' :: t2 => (jsonString t2).map fun p => ('\\' :: p.1, p.2)
      | _ => none
    else (jsonString t).map fun p => (c :: p.1, p.2)

mutual

/-- One JSON value, fuelled recursive descent. -/
def jsonValue : Nat → List Char → Option (Json × List Char)
  | 0, _ => none
  | fuel + 1, s =>
    match dropJsonWs s with
    | [] => none
    | c :: t =>
      if c = 'n' then (stripTok ['u', 'l', 'l'] t).map fun r => (.null, r)
      else if c = 't' then (stripTok ['r', 'u', 'e'] t).map fun r => (.bool true, r)
      else if c = 'f' then (stripTok ['a', 'l', 's', 'e'] t).map fun r => (.bool false, r)
      else if c = '"' then (jsonString t).map fun p => (.str p.1, p.2)
      else if c = '[' then
        match dropJsonWs t with
        | ']' :: r => some (.arr [], r)
        | r => (jsonElements fuel r).map fun p => (.arr p.1, p.2)
      else if c = '\x7b' then
        match dropJsonWs t with
        | '\x7d' :: r => some (.obj [], r)
        | r => (jsonPairs fuel r).map fun p => (.obj p.1, p.2)
      else jsonNumber (c :: t)

/-- Comma-separated array items up to the closing bracket. -/
def jsonElements : Nat → List Char → Option (List Json × List Char)
  | 0, _ => none
  | fuel + 1, s =>
    match jsonValue fuel s with
    | none => none
    | some (v, r) =>
      match dropJsonWs r with
      | ',' :: r2 => (jsonElements fuel r2).map fun p => (v :: p.1, p.2)
      | ']' :: r2 => some ([v], r2)
      | _ => none

/-- Comma-separated object members up to the closing brace. -/
def jsonPairs : Nat → List Char →
    Option (List (List Char × Json) × List Char)
  | 0, _ => none
  | fuel + 1, s =>
    match dropJsonWs s with
    | '"' :: r =>
      match jsonString r with
      | none => none
      | some (k, r2) =>
        match dropJsonWs r2 with
        | ':' :: r3 =>
          match jsonValue fuel r3 with
          | none => none
          | some (v, r4) =>
            match dropJsonWs r4 with
            | ',' :: r5 => (jsonPairs fuel r5).map fun p => ((k, v) :: p.1, p.2)
            | '\x7d' :: r5 => some ([(k, v)], r5)
            | _ => none
        | _ => none
    | _ => none

end

/-- Model of `json.loads`: parse one value, require only whitespace after
it; `none` models `json.JSONDecodeError`. -/
def json_loads (s : List Char) : Option Json :=
  match jsonValue (s.length + 1) s with
  | some (v, r) => if dropJsonWs r = [] then some v else none
  | none => none

/-- Witness for `malformed_frame_skipped`: a non-JSON segment between two
object frames. -/
theorem malformed_frame_skipped_witness :
    ('\n' ∉ String.toList "\x7b\x7d" ∧ '\n' ∉ String.toList "oops" ∧
     '\n' ∉ String.toList "\x7b\"a\": 1\x7d" ∧
     pyStrip (String.toList "\x7b\x7d") ≠ [] ∧
     pyStrip (String.toList "oops") ≠ [] ∧
     pyStrip (String.toList "\x7b\"a\": 1\x7d") ≠ [] ∧
     json_loads (String.toList "\x7b\x7d") = some (Json.obj []) ∧
     json_loads (String.toList "oops") = none ∧
     json_loads (String.toList "\x7b\"a\": 1\x7d") =
       some (Json.obj [(String.toList "a", Json.num 1)])) ∧
    process_buffer json_loads
        (String.toList "\x7b\x7d" ++ '\n' :: (String.toList "oops" ++ '\n' ::
          (String.toList "\x7b\"a\": 1\x7d" ++ ['\n']))) =
      (([Json.obj [], Json.obj [(String.toList "a", Json.num 1)]],
        [String.toList "oops"]), []) :=
  ⟨⟨by decide, by decide, by decide, by decide, by decide, by decide,
    rfl, rfl, rfl⟩,
   malformed_frame_skipped.1 json_loads _ _ _ _ _ (by decide) (by decide)
     (by decide) (by decide) (by decide) (by decide) rfl rfl rfl⟩

/-- Witness for `nonobject_frame_dropped`: a frame holding a JSON array. -/
theorem nonobject_frame_dropped_witness :
    ('\n' ∉ String.toList "[1, 2]" ∧
     json_loads (String.toList "[1, 2]") =
       some (Json.arr [Json.num 1, Json.num 2]) ∧
     (Json.arr [Json.num 1, Json.num 2]).isObj = false) ∧
    process_buffer json_loads (String.toList "[1, 2]" ++ '\n' :: []) =
      process_buffer json_loads [] :=
  ⟨⟨by decide, rfl, rfl⟩,
   nonobject_frame_dropped json_loads _ (Json.arr [Json.num 1, Json.num 2]) []
     (by decide) rfl rfl⟩

/-! ## Outbound frame of `send_message` (src/network/client.py lines 110-112):
model of `json.dumps(message, ensure_ascii=False) + "\n"`. -/

/-- JSON string escaping as performed by `json.dumps`: backslash, quote and
every control character below 0x20 are escaped; with `ensure_ascii=False`
all other characters pass through unchanged (the UTF-8 encoding of a
non-ASCII character never produces a 0x0A byte, so the character level is
faithful for newline counting). -/
def escChar (c : Char) : List Char :=
  if c = '\\' then ['\\', '\\']
  else if c = '"' then ['\\', '"']
  else if c = '\n' then ['\\', 'n']
  else if c = '\t' then ['\\', 't']
  else if c = '\x0d' then ['\\', 'r']
  else if c.toNat = 8 then ['\\', 'b']
  else if c.toNat = 12 then ['\\', 'f']
  else if c.toNat < 32 then
    ['\\', 'u', '0', '0', Nat.digitChar (c.toNat / 16), Nat.digitChar (c.toNat % 16)]
  else [c]

/-- Escape a whole string body. -/
def escStr (s : List Char) : List Char := (s.map escChar).flatten

/-- Decimal digits of a natural number, most significant first. -/
def natChars (n : Nat) : List Char :=
  if _h : n < 10 then [Nat.digitChar n]
  else natChars (n / 10) ++ [Nat.digitChar (n % 10)]
  decreasing_by exact Nat.div_lt_self (by omega) (by omega)

/-- Decimal representation of an integer. -/
def intChars (n : Int) : List Char :=
  if n < 0 then '-' :: natChars (-n).toNat else natChars n.toNat

/-- The `", "` item separator of `json.dumps` default formatting. -/
def joinComma : List (List Char) → List Char
  | [] => []
  | [x] => x
  | x :: y :: t => x ++ ',' :: ' ' :: joinComma (y :: t)

/-- Model of `json.dumps(., ensure_ascii=False)` with the default compact
separators: no newline is ever emitted between tokens; strings are escaped
by `escChar`.  Non-string scalar keys would be coerced to strings by the
real encoder, so keys are already strings here. -/
def json_dumps : Json → List Char
  | .null => "null".toList
  | .bool true => "true".toList
  | .bool false => "false".toList
  | .num n => intChars n
  | .str s => '"' :: (escStr s ++ ['"'])
  | .arr xs => '[' :: (joinComma (xs.attach.map fun p => json_dumps p.1) ++ [']'])
  | .obj kvs => '\x7b' :: (joinComma (kvs.attach.map fun p =>
      ('"' :: (escStr p.1.1 ++ ['"', ':', ' '])) ++ json_dumps p.1.2) ++ ['\x7d'])
  decreasing_by
  · have h := List.sizeOf_lt_of_mem p.2
    simp only [Json.arr.sizeOf_spec]
    omega
  · obtain ⟨⟨k, v⟩, hmem⟩ := p
    have h := List.sizeOf_lt_of_mem hmem
    simp only [Prod.mk.sizeOf_spec] at h
    simp only [Json.obj.sizeOf_spec]
    show sizeOf v < 1 + sizeOf kvs
    omega

/-- The complete outbound frame: serialized record plus the single newline
delimiter appended at client.py line 111. -/
def send_frame (kvs : List (List Char × Json)) : List Char :=
  json_dumps (Json.obj kvs) ++ ['\n']

theorem digitChar_ne_nl (d : Nat) (hd : d < 16) : Nat.digitChar d ≠ '\n' := by
  interval_cases d <;> decide

theorem natChars_no_nl (n : Nat) : '\n' ∉ natChars n := by
  induction n using Nat.strong_induction_on with
  | _ n ih =>
    rw [natChars]
    split
    · rename_i h
      simp only [List.mem_singleton]
      exact Ne.symm (digitChar_ne_nl n (by omega))
    · rename_i h
      simp only [List.mem_append, List.mem_singleton]
      push_neg
      exact ⟨ih (n / 10) (Nat.div_lt_self (by omega) (by omega)),
        Ne.symm (digitChar_ne_nl (n % 10) (by omega))⟩

theorem intChars_no_nl (n : Int) : '\n' ∉ intChars n := by
  rw [intChars]
  split
  · simp only [List.mem_cons]
    push_neg
    exact ⟨by decide, natChars_no_nl _⟩
  · exact natChars_no_nl _

theorem escChar_no_nl (c : Char) : '\n' ∉ escChar c := by
  rw [escChar]
  split_ifs with h1 h2 h3 h4 h5 h6 h7 h8
  · decide
  · decide
  · decide
  · decide
  · decide
  · decide
  · decide
  · intro hmem
    simp only [List.mem_cons, List.mem_singleton] at hmem
    rcases hmem with h | h | h | h | h | h
    · exact absurd h (by decide)
    · exact absurd h (by decide)
    · exact absurd h (by decide)
    · exact absurd h (by decide)
    · exact digitChar_ne_nl _ (by omega) h.symm
    · rcases h with h | h
      · exact digitChar_ne_nl _ (by omega) h.symm
      · simp at h
  · simp only [List.mem_singleton]
    exact fun hc => h3 hc.symm

theorem escStr_no_nl (s : List Char) : '\n' ∉ escStr s := by
  rw [escStr]
  intro hmem
  rw [List.mem_flatten] at hmem
  obtain ⟨l, hl, hcl⟩ := hmem
  rw [List.mem_map] at hl
  obtain ⟨c, _, rfl⟩ := hl
  exact escChar_no_nl c hcl

theorem mem_joinComma (c : Char) :
    ∀ ls : List (List Char), c ∈ joinComma ls →
      (∃ x ∈ ls, c ∈ x) ∨ c = ',' ∨ c = ' ' := by
  intro ls
  induction ls with
  | nil => intro h; simp [joinComma] at h
  | cons x t ih =>
    cases t with
    | nil =>
      intro h
      rw [joinComma] at h
      exact Or.inl ⟨x, by simp, h⟩
    | cons y t2 =>
      intro h
      rw [joinComma] at h
      rw [List.mem_append] at h
      rcases h with h | h
      · exact Or.inl ⟨x, by simp, h⟩
      · rcases h with _ | ⟨_, h⟩
        · exact Or.inr (Or.inl rfl)
        · rcases h with _ | ⟨_, h⟩
          · exact Or.inr (Or.inr rfl)
          · rcases ih h with ⟨z, hz, hcz⟩ | h | h
            · exact Or.inl ⟨z, by simp [hz], hcz⟩
            · exact Or.inr (Or.inl h)
            · exact Or.inr (Or.inr h)

theorem json_dumps_no_nl_aux (n : Nat) :
    ∀ j : Json, sizeOf j ≤ n → '\n' ∉ json_dumps j := by
  induction n using Nat.strong_induction_on with
  | _ n ih =>
    intro j hj
    match j with
    | .null => rw [json_dumps]; decide
    | .bool true => rw [json_dumps]; decide
    | .bool false => rw [json_dumps]; decide
    | .num m => rw [json_dumps]; exact intChars_no_nl m
    | .str s =>
      rw [json_dumps]
      simp only [List.mem_cons, List.mem_append, List.mem_singleton]
      push_neg
      exact ⟨by decide, escStr_no_nl s, by decide⟩
    | .arr xs =>
      rw [Json.arr.sizeOf_spec] at hj
      rw [json_dumps]
      intro hmem
      simp only [List.mem_cons, List.mem_append, List.mem_singleton] at hmem
      rcases hmem with h | hmem | h
      · exact absurd h (by decide)
      · rcases mem_joinComma _ _ hmem with ⟨x, hx, hcx⟩ | h | h
        · rw [List.mem_map] at hx
          obtain ⟨p, hp, rfl⟩ := hx
          have h1 := List.sizeOf_lt_of_mem p.2
          exact absurd hcx (ih (n - 1) (by omega) p.1 (by omega))
        · exact absurd h (by decide)
        · exact absurd h (by decide)
      · exact absurd h (by decide)
    | .obj kvs =>
      rw [Json.obj.sizeOf_spec] at hj
      rw [json_dumps]
      intro hmem
      simp only [List.mem_cons, List.mem_append, List.mem_singleton] at hmem
      rcases hmem with h | hmem | h
      · exact absurd h (by decide)
      · rcases mem_joinComma _ _ hmem with ⟨x, hx, hcx⟩ | h | h
        · rw [List.mem_map] at hx
          obtain ⟨p, hp, rfl⟩ := hx
          obtain ⟨⟨k, v⟩, hkv⟩ := p
          have h1 := List.sizeOf_lt_of_mem hkv
          rw [Prod.mk.sizeOf_spec] at h1
          simp only [List.cons_append, List.append_assoc, List.mem_cons,
            List.mem_append, List.mem_singleton] at hcx
          rcases hcx with h | h | h | h | h | h
          · exact absurd h (by decide)
          · exact escStr_no_nl k h
          · exact absurd h (by decide)
          · exact absurd h (by decide)
          · exact absurd h (by decide)
          · rcases h with h | h
            · simp at h
            · exact absurd h (ih (n - 1) (by omega) v (by omega))
        · exact absurd h (by decide)
        · exact absurd h (by decide)
      · exact absurd h (by decide)

theorem json_dumps_no_nl (j : Json) : '\n' ∉ json_dumps j :=
  json_dumps_no_nl_aux (sizeOf j) j le_rfl

/-- C9: for every dict command record, the outbound frame of `send_message`
contains exactly one newline character, which is its final character; the
serialized payload itself never contains a newline, so the appended newline
is the sole frame boundary marker. -/
theorem send_frame_single_newline (kvs : List (List Char × Json)) :
    '\n' ∉ json_dumps (Json.obj kvs) ∧
    (send_frame kvs).count '\n' = 1 ∧
    (send_frame kvs).getLast? = some '\n' := by
  have h := json_dumps_no_nl (Json.obj kvs)
  refine ⟨h, ?_, ?_⟩
  · rw [send_frame, List.count_append, List.count_eq_zero.mpr h]
    rfl
  · rw [send_frame]
    exact List.getLast?_concat _

/-! ## Transport session: send path (src/network/client.py lines 91-118) -/

/-- Python exceptions that can escape the modelled fragment. -/
inductive PyExc where
  | attributeError : PyExc
  | valueError : PyExc
deriving DecidableEq

/-- Connection-relevant state of one `TCPClient`: whether `self.socket` is
set, and the `self.running` flag. -/
structure ClientConn where
  socketSet : Bool
  running : Bool
deriving DecidableEq

/-- What the OS does with the `sendall` call. -/
inductive SendOutcome where
  | ok : SendOutcome
  | sockErr : SendOutcome
deriving DecidableEq

/-- Model of `TCPClient.send_message` (src/network/client.py lines 91-118)
for a dict argument (the non-dict ValueError branch is outside the claim).
Not connected: warn and return False.  Connected and the write succeeds:
return True.  Connected and `sendall` raises `socket.error`: the handler
`except (socket.error, json.JSONEncodeError)` is evaluated to match the
exception, and the `json` module has no attribute `JSONEncodeError`, so the
evaluation itself raises AttributeError; that AttributeError propagates out
of `send_message` and the `self.disconnect()` / `return False` lines of the
handler body are never reached, leaving the state unchanged. -/
def send_message (st : ClientConn) (outcome : SendOutcome) :
    Except PyExc (Bool × ClientConn) :=
  if st.socketSet = false ∨ st.running = false then .ok (false, st)
  else
    match outcome with
    | .ok => .ok (true, st)
    | .sockErr => .error .attributeError

/-- C7: `send_message` does return False without raising when the session is
not connected, but on a write failure it does not disconnect and return
False as claimed: the except clause names the nonexistent
`json.JSONEncodeError`, so an AttributeError escapes instead. -/
theorem send_message_behaviour :
    (∀ st : ClientConn, st.socketSet = false →
      send_message st .sockErr = .ok (false, st) ∧
      send_message st .ok = .ok (false, st)) ∧
    (∀ st : ClientConn, st.socketSet = true → st.running = true →
      send_message st .sockErr = .error .attributeError) := by
  constructor
  · intro st hs
    constructor <;> rw [send_message, if_pos (Or.inl hs)]
  · intro st hs hr
    rw [send_message, if_neg (by simp [hs, hr])]

/-- Witness for `send_message_behaviour` at concrete connection states. -/
theorem send_message_behaviour_witness :
    ((⟨false, false⟩ : ClientConn).socketSet = false ∧
      send_message ⟨false, false⟩ .sockErr = .ok (false, ⟨false, false⟩)) ∧
    ((⟨true, true⟩ : ClientConn).socketSet = true ∧
      (⟨true, true⟩ : ClientConn).running = true ∧
      send_message ⟨true, true⟩ .sockErr = .error .attributeError) :=
  ⟨⟨rfl, (send_message_behaviour.1 ⟨false, false⟩ rfl).1⟩,
   ⟨rfl, rfl, send_message_behaviour.2 ⟨true, true⟩ rfl rfl⟩⟩

/-! ## Transport session: connection lifecycle (src/network/client.py lines
49-89 and src/app.py lines 93-121) -/

/-- OS-level bookkeeping: which sockets are open, and the id the next
`socket.socket(...)` call returns. -/
structure World where
  openSockets : List Nat
  nextSock : Nat
deriving DecidableEq

/-- Socket-lifecycle state of one `TCPClient`. -/
structure TCPClientState where
  sock : Option Nat
  running : Bool
deriving DecidableEq

/-- Model of `TCPClient._cleanup_socket` (lines 80-89): close the socket if
one is set, then clear `self.socket`. -/
def cleanup_socket (c : TCPClientState) (w : World) : TCPClientState × World :=
  match c.sock with
  | some s => (⟨none, c.running⟩, ⟨w.openSockets.erase s, w.nextSock⟩)
  | none => (c, w)

/-- Model of `TCPClient.disconnect` (lines 74-78): clear `self.running`,
then clean up the socket. -/
def tcp_disconnect (c : TCPClientState) (w : World) :
    TCPClientState × World :=
  cleanup_socket ⟨c.sock, false⟩ w

/-- Model of `TCPClient.connect` (lines 49-72).  `reachable` abstracts
whether the endpoint accepts the connection.  Returns the boolean result,
the client, the world, and the trace of open-socket sets the call passes
through (after socket creation, and at return).  Lines 55-57: a client whose
socket is already set refuses with a warning and returns False without
touching it. -/
def tcp_connect (c : TCPClientState) (w : World) (reachable : Bool) :
    Bool × TCPClientState × World × List (List Nat) :=
  match c.sock with
  | some _ => (false, c, w, [w.openSockets])
  | none =>
    let s := w.nextSock
    let w2 : World := ⟨w.openSockets ++ [s], w.nextSock + 1⟩
    if reachable then
      (true, ⟨some s, true⟩, w2, [w2.openSockets, w2.openSockets])
    else
      let p := cleanup_socket ⟨some s, c.running⟩ w2
      (false, p.1, p.2, [w2.openSockets, p.2.openSockets])

/-- Model of `MCS.connect_to_server` (src/app.py lines 93-121): if a client
exists, disconnect it first; construct a fresh `TCPClient` (its `__init__`
validation is assumed to pass, and it starts with no socket and `running`
False); then call `connect`.  The trace lists every open-socket set the run
passes through, starting from the initial one. -/
def connect_to_server (tc : Option TCPClientState) (w : World)
    (reachable : Bool) :
    Bool × TCPClientState × World × List (List Nat) :=
  match tc with
  | some c =>
    let p := tcp_disconnect c w
    let q := tcp_connect ⟨none, false⟩ p.2 reachable
    (q.1, q.2.1, q.2.2.1, w.openSockets :: p.2.openSockets :: q.2.2.2)
  | none =>
    let q := tcp_connect ⟨none, false⟩ w reachable
    (q.1, q.2.1, q.2.2.1, w.openSockets :: q.2.2.2)

/-- C8: a `connect` issued through the application while the session is
already connected first tears the existing connection down and then
establishes the new one: with one socket open initially, every state the run
passes through has at most one socket open, the old socket is closed, and
the call returns True when the new endpoint is reachable. -/
theorem connect_while_connected (c : TCPClientState) (w : World) (s : Nat)
    (hc : c.sock = some s) (hw : w.openSockets = [s])
    (hfresh : s ≠ w.nextSock) :
    (connect_to_server (some c) w true).1 = true ∧
    (∀ snap ∈ (connect_to_server (some c) w true).2.2.2, snap.length ≤ 1) ∧
    (connect_to_server (some c) w true).2.2.1.openSockets = [w.nextSock] ∧
    s ∉ (connect_to_server (some c) w true).2.2.1.openSockets ∧
    (connect_to_server (some c) w true).2.1.sock = some w.nextSock := by
  simp only [connect_to_server, tcp_disconnect, cleanup_socket, tcp_connect,
    hc, hw]
  simp [List.erase_cons_head, hfresh]

/-- Witness for `connect_while_connected`: socket 0 open, fresh socket id 1,
reachable endpoint. -/
theorem connect_while_connected_witness :
    ((⟨some 0, true⟩ : TCPClientState).sock = some 0 ∧
      (⟨[0], 1⟩ : World).openSockets = [0] ∧
      (0 : Nat) ≠ (⟨[0], 1⟩ : World).nextSock) ∧
    ((connect_to_server (some ⟨some 0, true⟩) ⟨[0], 1⟩ true).1 = true ∧
      ∀ snap ∈ (connect_to_server (some ⟨some 0, true⟩) ⟨[0], 1⟩ true).2.2.2,
        snap.length ≤ 1) :=
  ⟨⟨rfl, rfl, by decide⟩,
   ⟨(connect_while_connected ⟨some 0, true⟩ ⟨[0], 1⟩ 0 rfl rfl (by decide)).1,
    (connect_while_connected ⟨some 0, true⟩ ⟨[0], 1⟩ 0 rfl rfl (by decide)).2.1⟩⟩

/-! ## Byte-level receive events (src/network/client.py line 134):
`self._buffer += data.decode('utf-8', errors='replace')` decodes each
received chunk independently before it reaches the framer. -/

/-- The U+FFFD replacement character produced by `errors='replace'`. -/
def replChar : Char := '�'

/-- First-continuation-byte admissibility of a 3-byte UTF-8 sequence
(E0 tightens the low bound against overlong forms, ED excludes
surrogates). -/
def utf8Cont3 (b c : Nat) : Bool :=
  if b = 0xE0 then 0xA0 ≤ c ∧ c ≤ 0xBF
  else if b = 0xED then 0x80 ≤ c ∧ c ≤ 0x9F
  else 0x80 ≤ c ∧ c ≤ 0xBF

/-- First-continuation-byte admissibility of a 4-byte UTF-8 sequence
(F0 tightens against overlong forms, F4 caps at U+10FFFF). -/
def utf8Cont4 (b c : Nat) : Bool :=
  if b = 0xF0 then 0x90 ≤ c ∧ c ≤ 0xBF
  else if b = 0xF4 then 0x80 ≤ c ∧ c ≤ 0x8F
  else 0x80 ≤ c ∧ c ≤ 0xBF

/-- Model of CPython's `bytes.decode('utf-8', errors='replace')`: complete
sequences decode to their scalar value; an invalid start byte yields one
U+FFFD and resumes at the next byte; a valid prefix that is truncated or
followed by an inadmissible continuation byte yields one U+FFFD for the
whole prefix and resumes after it (the maximal-subpart rule CPython
implements). -/
def utf8DecodeAux : Nat → List Nat → List Char
  | 0, _ => []
  | _ + 1, [] => []
  | fuel + 1, b :: rest =>
    if b < 0x80 then Char.ofNat b :: utf8DecodeAux fuel rest
    else if 0xC2 ≤ b ∧ b ≤ 0xDF then
      match rest with
      | c1 :: rest2 =>
        if 0x80 ≤ c1 ∧ c1 ≤ 0xBF then
          Char.ofNat ((b - 0xC0) * 0x40 + (c1 - 0x80)) ::
            utf8DecodeAux fuel rest2
        else replChar :: utf8DecodeAux fuel (c1 :: rest2)
      | [] => [replChar]
    else if 0xE0 ≤ b ∧ b ≤ 0xEF then
      match rest with
      | c1 :: rest2 =>
        if utf8Cont3 b c1 then
          match rest2 with
          | c2 :: rest3 =>
            if 0x80 ≤ c2 ∧ c2 ≤ 0xBF then
              Char.ofNat ((b - 0xE0) * 0x1000 + (c1 - 0x80) * 0x40 + (c2 - 0x80)) ::
                utf8DecodeAux fuel rest3
            else replChar :: utf8DecodeAux fuel (c2 :: rest3)
          | [] => [replChar]
        else replChar :: utf8DecodeAux fuel (c1 :: rest2)
      | [] => [replChar]
    else if 0xF0 ≤ b ∧ b ≤ 0xF4 then
      match rest with
      | c1 :: rest2 =>
        if utf8Cont4 b c1 then
          match rest2 with
          | c2 :: rest3 =>
            if 0x80 ≤ c2 ∧ c2 ≤ 0xBF then
              match rest3 with
              | c3 :: rest4 =>
                if 0x80 ≤ c3 ∧ c3 ≤ 0xBF then
                  Char.ofNat ((b - 0xF0) * 0x40000 + (c1 - 0x80) * 0x1000 +
                      (c2 - 0x80) * 0x40 + (c3 - 0x80)) ::
                    utf8DecodeAux fuel rest4
                else replChar :: utf8DecodeAux fuel (c3 :: rest4)
              | [] => [replChar]
            else replChar :: utf8DecodeAux fuel (c2 :: rest3)
          | [] => [replChar]
        else replChar :: utf8DecodeAux fuel (c1 :: rest2)
      | [] => [replChar]
    else replChar :: utf8DecodeAux fuel rest

/-- The decode of a whole chunk; every step consumes at least one byte, so
`length + 1` fuel always suffices. -/
def utf8_decode_replace (l : List Nat) : List Char :=
  utf8DecodeAux (l.length + 1) l

/-- One receive event of `receive_data` taken at the byte level: the chunk
is decoded on its own (client.py line 134) and only then appended to the
buffer. -/
def receive_step_bytes (loads : List Char → Option Json)
    (st : (List Json × List (List Char)) × List Char) (chunk : List Nat) :
    (List Json × List (List Char)) × List Char :=
  receive_step loads st (utf8_decode_replace chunk)

/-- A whole sequence of byte-level receive events from a fresh connection. -/
def receive_run_bytes (loads : List Char → Option Json)
    (chunks : List (List Nat)) : (List Json × List (List Char)) × List Char :=
  chunks.foldl (receive_step_bytes loads) (([], []), [])

theorem receive_run_bytes_eq (loads : List Char → Option Json)
    (bc : List (List Nat)) :
    receive_run_bytes loads bc =
      receive_run loads (bc.map utf8_decode_replace) := by
  unfold receive_run_bytes receive_run
  rw [List.foldl_map]
  rfl

theorem utf8DecodeAux_ascii :
    ∀ (fuel : Nat) (l : List Nat), l.length < fuel → (∀ b ∈ l, b < 128) →
      utf8DecodeAux fuel l = l.map Char.ofNat := by
  intro fuel
  induction fuel with
  | zero => intro l hl _; omega
  | succ fuel ih =>
    intro l hl h
    match l with
    | [] => rfl
    | b :: t =>
      show utf8DecodeAux (fuel + 1) (b :: t) = _
      simp only [utf8DecodeAux]
      rw [if_pos (h b (by simp)),
        ih t (by simp at hl; omega) (fun x hx => h x (by simp [hx])),
        List.map_cons]

theorem utf8_decode_ascii (l : List Nat) (h : ∀ b ∈ l, b < 128) :
    utf8_decode_replace l = l.map Char.ofNat :=
  utf8DecodeAux_ascii (l.length + 1) l (by omega) h

theorem decode_flatten_ascii (bc : List (List Nat))
    (h : ∀ c ∈ bc, ∀ b ∈ c, b < 128) :
    (bc.map utf8_decode_replace).flatten = bc.flatten.map Char.ofNat := by
  induction bc with
  | nil => rfl
  | cons c t ih =>
    simp only [List.map_cons, List.flatten_cons, List.map_append]
    rw [utf8_decode_ascii c (h c (by simp)),
      ih (fun x hx => h x (by simp [hx]))]

/-- C2 (amended): each receive event's bytes are decoded on their own with
`errors='replace'` before they reach the buffer, so the dispatched message
sequence depends only on the concatenation of the per-event decoded text -
not on the raw byte stream; for all-ASCII traffic the decoded text is the
byte stream, so there the byte-level invariance holds; a single event
carrying two decoded newline-terminated frames dispatches two distinct
messages in order, and a frame whose decoded text spans two events is
dispatched exactly once.  (A split inside a multi-byte UTF-8 character
changes the decoded text - each fragment becomes U+FFFD - and can change
the dispatched messages; see the counterexample.) -/
theorem dispatch_depends_on_decoded_text :
    (∀ (loads : List Char → Option Json) (bc1 bc2 : List (List Nat)),
      (bc1.map utf8_decode_replace).flatten =
        (bc2.map utf8_decode_replace).flatten →
      (receive_run_bytes loads bc1).1.1 = (receive_run_bytes loads bc2).1.1) ∧
    (∀ (loads : List Char → Option Json) (bc1 bc2 : List (List Nat)),
      (∀ c ∈ bc1, ∀ b ∈ c, b < 128) → (∀ c ∈ bc2, ∀ b ∈ c, b < 128) →
      bc1.flatten = bc2.flatten →
      (receive_run_bytes loads bc1).1.1 = (receive_run_bytes loads bc2).1.1) ∧
    (∀ (loads : List Char → Option Json) (b1 : List Nat) (s1 s2 : List Char)
      (o1 o2 : List (List Char × Json)),
      utf8_decode_replace b1 = s1 ++ '\n' :: (s2 ++ ['\n']) →
      '\n' ∉ s1 → '\n' ∉ s2 → pyStrip s1 ≠ [] → pyStrip s2 ≠ [] →
      loads s1 = some (Json.obj o1) → loads s2 = some (Json.obj o2) →
      (receive_run_bytes loads [b1]).1.1 = [Json.obj o1, Json.obj o2]) ∧
    (∀ (loads : List Char → Option Json) (b1 b2 : List Nat) (s : List Char)
      (o : List (List Char × Json)),
      utf8_decode_replace b1 ++ utf8_decode_replace b2 = s ++ ['\n'] →
      '\n' ∉ s → pyStrip s ≠ [] → loads s = some (Json.obj o) →
      (receive_run_bytes loads [b1, b2]).1.1 = [Json.obj o]) := by
  refine ⟨?_, ?_, ?_, ?_⟩
  · intro loads bc1 bc2 h
    rw [receive_run_bytes_eq, receive_run_bytes_eq]
    exact receive_text_invariance.1 loads _ _ h
  · intro loads bc1 bc2 h1 h2 h
    rw [receive_run_bytes_eq, receive_run_bytes_eq]
    refine receive_text_invariance.1 loads _ _ ?_
    rw [decode_flatten_ascii bc1 h1, decode_flatten_ascii bc2 h2, h]
  · intro loads b1 s1 s2 o1 o2 hdec h1 h2 hp1 hp2 hl1 hl2
    rw [receive_run_bytes_eq]
    simp only [List.map_cons, List.map_nil, hdec]
    exact receive_text_invariance.2.1 loads s1 s2 o1 o2 h1 h2 hp1 hp2 hl1 hl2
  · intro loads b1 b2 s o hdec hs hps hl
    rw [receive_run_bytes_eq]
    simp only [List.map_cons, List.map_nil]
    exact receive_text_invariance.2.2 loads _ _ s o hdec hs hps hl

/-- Payload of the single string-valued one-entry object message, used to
separate two dispatched message sequences. -/
def firstStrPayload : List Json → List Char
  | [Json.obj [(_, Json.str s)]] => s
  | _ => []

/-- C2 counterexample: the dispatched messages do depend on how the byte
stream is split into receive events.  The frame encoding
`\x7b"a": "<euro sign>"\x7d` ends with the three bytes E2 82 AC of the euro
sign's UTF-8 form inside the string value; delivering the same bytes in one
event dispatches a message whose payload is the euro sign, while splitting
between the 82 and the AC decodes each fragment to U+FFFD and dispatches a
different message. -/
theorem dispatch_byte_split_counterexample :
    (([[0x7B, 0x22, 0x61, 0x22, 0x3A, 0x20, 0x22, 0xE2, 0x82, 0xAC, 0x22,
        0x7D, 0x0A]] : List (List Nat)).flatten =
      ([[0x7B, 0x22, 0x61, 0x22, 0x3A, 0x20, 0x22, 0xE2, 0x82],
        [0xAC, 0x22, 0x7D, 0x0A]] : List (List Nat)).flatten) ∧
    (receive_run_bytes json_loads
        [[0x7B, 0x22, 0x61, 0x22, 0x3A, 0x20, 0x22, 0xE2, 0x82, 0xAC, 0x22,
          0x7D, 0x0A]]).1.1 ≠
      (receive_run_bytes json_loads
        [[0x7B, 0x22, 0x61, 0x22, 0x3A, 0x20, 0x22, 0xE2, 0x82],
         [0xAC, 0x22, 0x7D, 0x0A]]).1.1 := by
  constructor
  · rfl
  · intro h
    have h2 := congrArg firstStrPayload h
    exact absurd h2 (by decide)

/-- Witness for `dispatch_depends_on_decoded_text` on all-ASCII byte chunks:
one frame split across two receive events against the same bytes in one
event. -/
theorem dispatch_depends_on_decoded_text_witness :
    ((∀ c ∈ [(String.toList "\x7b\"a\": 1\x7d\n\x7b\"b\"").map Char.toNat,
        (String.toList ": 2\x7d\n").map Char.toNat], ∀ b ∈ c, b < 128) ∧
      (∀ c ∈ [(String.toList "\x7b\"a\": 1\x7d\n\x7b\"b\": 2\x7d\n").map Char.toNat],
        ∀ b ∈ c, b < 128) ∧
      ([(String.toList "\x7b\"a\": 1\x7d\n\x7b\"b\"").map Char.toNat,
        (String.toList ": 2\x7d\n").map Char.toNat] : List (List Nat)).flatten =
        ([(String.toList "\x7b\"a\": 1\x7d\n\x7b\"b\": 2\x7d\n").map Char.toNat] :
          List (List Nat)).flatten) ∧
    (receive_run_bytes json_loads
        [(String.toList "\x7b\"a\": 1\x7d\n\x7b\"b\"").map Char.toNat,
         (String.toList ": 2\x7d\n").map Char.toNat]).1.1 =
      (receive_run_bytes json_loads
        [(String.toList "\x7b\"a\": 1\x7d\n\x7b\"b\": 2\x7d\n").map Char.toNat]).1.1 :=
  ⟨⟨by decide, by decide, by decide⟩,
   dispatch_depends_on_decoded_text.2.1 json_loads _ _ (by decide) (by decide)
     (by decide)⟩
